import Mathlib

/-!
# Minimal SOCKS5 proxy: the per-connection state machine of `src/socks5.js`

A shallow embedding of `Socks5Connection` (handshake parsing over an accumulating
receive buffer, reply encoding, outbound connection set-up) together with the
JavaScript library operations the code relies on.

* A `Buffer` is a `List Byte` with `Byte = Fin 256`.
* A JavaScript string is the list of its UTF-16 code units.
* Socket side effects are recorded, in order, in the `trace` field of the
  connection state.
* `net.isIP` belongs to the Node.js runtime, not to the repository: every
  definition that reaches `buildReply` takes it as the parameter `isIP`.
* Logger calls have no effect on the connection and are left out.
* Listeners run in registration order on the listeners registered when the event
  is emitted; `step` delivers one event to them.
-/

namespace Socks5

/-! ## Bytes and JavaScript strings -/

abbrev Byte := Fin 256

/-- A JavaScript string, as the list of its UTF-16 code units. -/
abbrev JsString := List Nat

/-- Storing a number into a `Buffer` keeps its low eight bits. -/
def toUint8 (v : Int) : Byte := ⟨(v % 256).toNat, by omega⟩

/-- JavaScript `buf.slice(a, b)` for `0 ≤ a`, `0 ≤ b`. -/
def slice (buf : List Byte) (a b : Nat) : List Byte := (buf.drop a).take (b - a)

/-- JavaScript `buf[i]` as a number; every use in the code is guarded by a length check. -/
def byteAt (buf : List Byte) (i : Nat) : Nat := (buf.getD i 0).val

/-- JavaScript `buf.readUInt16BE(i)`. -/
def readUInt16BE (buf : List Byte) (i : Nat) : Nat := 256 * byteAt buf i + byteAt buf (i + 1)

/-- Digit character of `Number.prototype.toString(radix)`: `0-9`, then `a-z`. -/
def digitChar (d : Nat) : Nat := if d < 10 then 48 + d else 87 + d

/-- Digits of `n`, most significant first, pushed in front of `acc`. -/
def toDigits (radix : Nat) : Nat → Nat → List Nat → List Nat
  | 0, _, acc => acc
  | fuel + 1, n, acc =>
    if n / radix = 0 then digitChar (n % radix) :: acc
    else toDigits radix fuel (n / radix) (digitChar (n % radix) :: acc)

/-- JavaScript `n.toString(radix)` for a non-negative integer `n` (also the string that
`Array.prototype.join` uses for a number, with `radix = 10`). -/
def numToString (radix n : Nat) : JsString := toDigits radix (n + 1) n []

/-- JavaScript `parts.join(sep)` for an array of strings and a one-character separator. -/
def join (sep : Nat) : List JsString → JsString
  | [] => []
  | [s] => s
  | s :: t :: rest => s ++ sep :: join sep (t :: rest)

/-- JavaScript `s.split(sep)` for a one-character separator. -/
def split (sep : Nat) : JsString → List JsString
  | [] => [[]]
  | c :: cs =>
    if c = sep then [] :: split sep cs
    else match split sep cs with
      | [] => [[c]]
      | g :: gs => (c :: g) :: gs

/-- White space skipped by `parseInt` (ECMAScript `WhiteSpace` and `LineTerminator`). -/
def isWhiteSpace (c : Nat) : Bool :=
  c = 9 || c = 10 || c = 11 || c = 12 || c = 13 || c = 32 || c = 160 || c = 0x1680 ||
  (0x2000 ≤ c && c ≤ 0x200A) || c = 0x2028 || c = 0x2029 || c = 0x202F || c = 0x205F ||
  c = 0x3000 || c = 0xFEFF

/-- Value of a digit character in radix up to 36, if it is one. -/
def digitValue (c : Nat) : Option Nat :=
  if 48 ≤ c ∧ c ≤ 57 then some (c - 48)
  else if 97 ≤ c ∧ c ≤ 122 then some (c - 87)
  else if 65 ≤ c ∧ c ≤ 90 then some (c - 55)
  else none

/-- Is `c` a digit of the given radix? -/
def isDigit (radix c : Nat) : Bool :=
  match digitValue c with
  | some d => decide (d < radix)
  | none => false

/-- Value of a string of digits, most significant first. -/
def digitsValue (radix : Nat) (ds : List Nat) : Nat :=
  ds.foldl (fun acc c => radix * acc + (digitValue c).getD 0) 0

/-- Does the string start with a minus sign? -/
def hasMinus : JsString → Bool
  | 45 :: _ => true
  | _ => false

/-- The string after an optional leading `+` or `-`. -/
def dropSign : JsString → JsString
  | 45 :: t => t
  | 43 :: t => t
  | s => s

/-- The string after an optional leading `0x` or `0X`. -/
def dropHexMark : JsString → JsString
  | 48 :: 120 :: t => t
  | 48 :: 88 :: t => t
  | s => s

/-- JavaScript `parseInt(s, radix)` for `radix` 10 or 16; `none` is `NaN`. White space is
skipped, a sign is read, for radix 16 a `0x` or `0X` is skipped, and the longest
run of digits is evaluated. The value is the exact integer (JavaScript rounds it
to a double above `2^53`). -/
def parseInt (s : JsString) (radix : Nat) : Option Int :=
  let s1 := s.dropWhile isWhiteSpace
  let s2 := dropSign s1
  let s3 := if radix = 16 then dropHexMark s2 else s2
  let ds := s3.takeWhile (isDigit radix)
  if ds = [] then none
  else if hasMinus s1 then some (-(digitsValue radix ds : Int))
  else some (digitsValue radix ds : Int)

/-- JavaScript `ToInt32`, applied by the bitwise operators; `NaN` becomes `0`. -/
def toInt32 : Option Int → Int
  | none => 0
  | some v => (v + 2147483648) % 4294967296 - 2147483648

/-- JavaScript `Buffer.from(array)` on one array element: `NaN` is stored as `0`. -/
def numToByte : Option Int → Byte
  | none => 0
  | some v => toUint8 v

/-- High surrogate of a code point above `0xFFFF`. -/
def highSurrogate (cp : Nat) : Nat := 0xD800 + (cp - 0x10000) / 1024

/-- Low surrogate of a code point above `0xFFFF`. -/
def lowSurrogate (cp : Nat) : Nat := 0xDC00 + (cp - 0x10000) % 1024

/-- UTF-16 code units of one code point. -/
def codeUnits (cp : Nat) : JsString :=
  if cp < 0x10000 then [cp] else [highSurrogate cp, lowSurrogate cp]

/-- State of the UTF-8 decoder between bytes: the code point built so far,
the number of continuation bytes still expected, and the range allowed for the
next continuation byte. -/
structure Utf8State where
  cp : Nat
  needed : Nat
  lower : Nat
  upper : Nat
  deriving DecidableEq, Repr

/-- Decoder state outside a multi-byte sequence. -/
def Utf8State.init : Utf8State := ⟨0, 0, 0x80, 0xBF⟩

/-- A byte read outside a multi-byte sequence. -/
def utf8Lead (b : Nat) : Utf8State × JsString :=
  if b ≤ 0x7F then (Utf8State.init, [b])
  else if 0xC2 ≤ b ∧ b ≤ 0xDF then (⟨b % 32, 1, 0x80, 0xBF⟩, [])
  else if 0xE0 ≤ b ∧ b ≤ 0xEF then
    (⟨b % 16, 2, if b = 0xE0 then 0xA0 else 0x80, if b = 0xED then 0x9F else 0xBF⟩, [])
  else if 0xF0 ≤ b ∧ b ≤ 0xF4 then
    (⟨b % 8, 3, if b = 0xF0 then 0x90 else 0x80, if b = 0xF4 then 0x8F else 0xBF⟩, [])
  else (Utf8State.init, [0xFFFD])

/-- One byte of UTF-8 decoding with replacement: a byte that cannot continue the
current sequence ends it with U+FFFD and is then read as the start of a new one. -/
def utf8Step (st : Utf8State) (b : Nat) : Utf8State × JsString :=
  if st.needed = 0 then utf8Lead b
  else if b < st.lower ∨ st.upper < b then
    ((utf8Lead b).1, 0xFFFD :: (utf8Lead b).2)
  else
    let cp := st.cp * 64 + b % 64
    if st.needed = 1 then (Utf8State.init, codeUnits cp)
    else (⟨cp, st.needed - 1, 0x80, 0xBF⟩, [])

/-- Decoding loop; a sequence cut short by the end of input yields U+FFFD. -/
def utf8Loop : Utf8State → List Byte → JsString
  | st, [] => if st.needed = 0 then [] else [0xFFFD]
  | st, b :: bs => (utf8Step st b.val).2 ++ utf8Loop (utf8Step st b.val).1 bs

/-- JavaScript `buf.toString("utf8")`: UTF-8 decoding in which every ill-formed sequence
is replaced by U+FFFD. -/
def utf8Decode (buf : List Byte) : JsString := utf8Loop Utf8State.init buf

/-! ## Protocol constants -/

abbrev SOCKS_VERSION : Nat := 0x05
abbrev METHOD_NO_ACCEPTABLE : Nat := 0xff
abbrev METHOD_USERPASS : Nat := 0x02
abbrev AUTH_VERSION : Nat := 0x01
abbrev REP_SUCCEEDED : Nat := 0x00
abbrev REP_GENERAL_FAILURE : Nat := 0x01
abbrev REP_HOST_UNREACHABLE : Nat := 0x04
abbrev REP_CONN_REFUSED : Nat := 0x05
abbrev REP_CMD_NOT_SUPPORTED : Nat := 0x07
abbrev REP_ADDR_TYPE_NOT_SUPPORTED : Nat := 0x08
abbrev CMD_CONNECT : Nat := 0x01
abbrev ATYP_IPV4 : Nat := 0x01
abbrev ATYP_DOMAIN : Nat := 0x03
abbrev ATYP_IPV6 : Nat := 0x04

/-- The string `"0.0.0.0"`, default bound host of `buildReply`. -/
def defaultHost : JsString := [48, 46, 48, 46, 48, 46, 48]

/-! ## Reply encoding -/

/-- Address bytes of the IPv4 branch of `buildReply`:
`Buffer.from(addr.split(".").map((x) => parseInt(x, 10)))`. -/
def ipv4Bytes (addr : JsString) : List Byte :=
  (split 46 addr).map (fun x => numToByte (parseInt x 10))

/-- The two array elements `[v >> 8, v & 0xff]` of one colon group, with
`v = parseInt(h || "0", 16)`, as stored by `Buffer.from`. -/
def hextetBytes (h : JsString) : List Byte :=
  let v := toInt32 (parseInt (if h = [] then [48] else h) 16)
  [toUint8 (v / 256), toUint8 (v % 256)]

/-- Address bytes of the IPv6 branch of `buildReply`, including the replacement
by sixteen zero bytes when the length is not 16. -/
def ipv6Bytes (addr : JsString) : List Byte :=
  let addrBytes := (split 58 addr).flatMap hextetBytes
  if addrBytes.length ≠ 16 then List.replicate 16 0 else addrBytes

/-- JavaScript `buildReply(rep, boundHost, boundPort)`. `none` stands for the `RangeError`
that `writeUInt16BE` throws for a port outside `0..65535`. -/
def buildReply (isIP : JsString → Nat) (rep : Nat) (boundHost : JsString) (boundPort : Nat) :
    Option (List Byte) :=
  let addr := boundHost
  let atypAddr : Nat × List Byte :=
    if isIP addr = 4 then (ATYP_IPV4, ipv4Bytes addr)
    else if isIP addr = 6 then (ATYP_IPV6, ipv6Bytes addr)
    else (ATYP_IPV4, [0, 0, 0, 0])
  if boundPort ≤ 65535 then
    some ([toUint8 SOCKS_VERSION, toUint8 rep, 0x00, toUint8 atypAddr.1] ++ atypAddr.2 ++
      [toUint8 (boundPort / 256), toUint8 (boundPort % 256)])
  else none

/-! ## Connection state -/

/-- Values of `this.stage`. -/
inductive Stage where
  | greeting
  | auth
  | request
  | stream
  deriving DecidableEq, Repr

/-- The `creds` object handed to the constructor. -/
structure Credentials where
  username : JsString
  password : JsString
  deriving DecidableEq, Repr

/-- Calls made on the two sockets and on `net`, in the order they happen.
Outbound sockets are numbered in creation order, from 0. -/
inductive Effect where
  /-- JavaScript `this.socket.write(bytes)` -/
  | write (bytes : List Byte)
  /-- JavaScript `this.socket.end()` -/
  | socketEnd
  /-- JavaScript `net.createConnection(\x7b host, port \x7d, ...)` -/
  | createConnection (host : JsString) (port : Nat)
  /-- JavaScript `this.socket.pipe(remote); remote.pipe(this.socket)` for outbound socket `remote` -/
  | pipe (remote : Nat)
  /-- a client chunk handed to outbound socket `remote` by `this.socket.pipe(remote)` -/
  | remoteWrite (remote : Nat) (bytes : List Byte)
  /-- a chunk of the outbound socket handed to the client by `remote.pipe(this.socket)` -/
  | relayDown (bytes : List Byte)
  /-- JavaScript `this.remote.destroy()` -/
  | remoteDestroy (remote : Nat)
  /-- JavaScript `this.socket.destroy()` -/
  | socketDestroy
  deriving DecidableEq, Repr

/-- Fields of a `Socks5Connection`, with the trace of socket calls made so far.
`remotes` lists the targets of the outbound sockets created so far, `this.remote`
being the last of them; `piped` lists the outbound sockets whose connect callback
has run. -/
structure Socks5Connection where
  creds : Credentials
  stage : Stage
  buffer : List Byte
  remotes : List (JsString × Nat)
  piped : List Nat
  bytesUp : Nat
  bytesDown : Nat
  closed : Bool
  trace : List Effect
  deriving DecidableEq, Repr

/-- The state set up by the constructor. -/
def Socks5Connection.new (creds : Credentials) : Socks5Connection :=
  { creds := creds, stage := Stage.greeting, buffer := [], remotes := [], piped := [],
    bytesUp := 0, bytesDown := 0, closed := false, trace := [] }

/-- Record one socket call. -/
def emit (c : Socks5Connection) (e : Effect) : Socks5Connection :=
  { c with trace := c.trace ++ [e] }

/-- JavaScript `needBytes(n)`. -/
def needBytes (c : Socks5Connection) (n : Nat) : Bool := decide (c.buffer.length ≥ n)

/-- JavaScript `consume(n)`; the returned slice is not used by any caller. -/
def consume (c : Socks5Connection) (n : Nat) : Socks5Connection :=
  { c with buffer := c.buffer.drop n }

/-- JavaScript `writeMethodSelection(socket, method)`. -/
def writeMethodSelection (c : Socks5Connection) (method : Nat) : Socks5Connection :=
  emit c (Effect.write [toUint8 SOCKS_VERSION, toUint8 method])

/-- JavaScript `writeAuthStatus(socket, status)`. -/
def writeAuthStatus (c : Socks5Connection) (status : Nat) : Socks5Connection :=
  emit c (Effect.write [toUint8 AUTH_VERSION, toUint8 status])

/-- JavaScript `this.socket.write(buildReply(rep, host, port))`. When `buildReply` throws,
nothing is written; no caller passes a port outside `0..65535`. -/
def writeReply (isIP : JsString → Nat) (c : Socks5Connection) (rep : Nat) (host : JsString)
    (port : Nat) : Socks5Connection :=
  match buildReply isIP rep host port with
  | some bytes => emit c (Effect.write bytes)
  | none => c

/-- JavaScript `handleGreeting()`. -/
def handleGreeting (c : Socks5Connection) : Socks5Connection :=
  if ¬ needBytes c 2 then c
  else
    let ver := byteAt c.buffer 0
    let nmethods := byteAt c.buffer 1
    if ver ≠ SOCKS_VERSION then emit c Effect.socketEnd
    else if ¬ needBytes c (2 + nmethods) then c
    else
      let methods := slice c.buffer 2 (2 + nmethods)
      let c1 := consume c (2 + nmethods)
      if ¬ (METHOD_USERPASS ∈ methods.map Fin.val) then
        emit (writeMethodSelection c1 METHOD_NO_ACCEPTABLE) Effect.socketEnd
      else
        { writeMethodSelection c1 METHOD_USERPASS with stage := Stage.auth }

/-- JavaScript `handleAuth()`. -/
def handleAuth (c : Socks5Connection) : Socks5Connection :=
  if ¬ needBytes c 2 then c
  else
    let ver := byteAt c.buffer 0
    if ver ≠ AUTH_VERSION then emit c Effect.socketEnd
    else
      let ulen := byteAt c.buffer 1
      if ¬ needBytes c (2 + ulen + 1) then c
      else
        let username := utf8Decode (slice c.buffer 2 (2 + ulen))
        let plen := byteAt c.buffer (2 + ulen)
        if ¬ needBytes c (2 + ulen + 1 + plen) then c
        else
          let password := utf8Decode (slice c.buffer (2 + ulen + 1) (2 + ulen + 1 + plen))
          let c1 := consume c (2 + ulen + 1 + plen)
          let ok : Bool := decide (username = c.creds.username ∧ password = c.creds.password)
          let c2 := writeAuthStatus c1 (if ok then 0x00 else 0x01)
          if ¬ ok then emit c2 Effect.socketEnd
          else { c2 with stage := Stage.request }

/-- JavaScript `establishRemote(host, port)`: the outbound socket is created and becomes
`this.remote`; its listeners are the events of `step` below. -/
def establishRemote (c : Socks5Connection) (host : JsString) (port : Nat) : Socks5Connection :=
  { emit c (Effect.createConnection host port) with remotes := c.remotes ++ [(host, port)] }

/-- JavaScript `handleRequest()`. -/
def handleRequest (isIP : JsString → Nat) (c : Socks5Connection) : Socks5Connection :=
  if ¬ needBytes c 4 then c
  else
    let ver := byteAt c.buffer 0
    let cmd := byteAt c.buffer 1
    let atyp := byteAt c.buffer 3
    if ver ≠ SOCKS_VERSION then emit c Effect.socketEnd
    else if cmd ≠ CMD_CONNECT then
      emit (writeReply isIP (consume c c.buffer.length) REP_CMD_NOT_SUPPORTED defaultHost 0)
        Effect.socketEnd
    else if atyp = ATYP_IPV4 then
      if ¬ needBytes c (4 + 4 + 2) then c
      else
        let addr := join 46 ((slice c.buffer 4 8).map (fun b => numToString 10 b.val))
        let port := readUInt16BE c.buffer 8
        establishRemote (consume c 10) addr port
    else if atyp = ATYP_DOMAIN then
      if ¬ needBytes c 5 then c
      else
        let dlen := byteAt c.buffer 4
        let need := 4 + 1 + dlen + 2
        if ¬ needBytes c need then c
        else
          let addr := utf8Decode (slice c.buffer 5 (5 + dlen))
          let port := readUInt16BE c.buffer (5 + dlen)
          establishRemote (consume c (4 + 1 + dlen + 2)) addr port
    else if atyp = ATYP_IPV6 then
      if ¬ needBytes c (4 + 16 + 2) then c
      else
        let b := slice c.buffer 4 20
        let parts := [0, 2, 4, 6, 8, 10, 12, 14].map
          (fun i => numToString 16 (readUInt16BE b i))
        let addr := join 58 parts
        let port := readUInt16BE c.buffer 20
        establishRemote (consume c 22) addr port
    else
      emit (writeReply isIP c REP_ADDR_TYPE_NOT_SUPPORTED defaultHost 0) Effect.socketEnd

/-- JavaScript `onData(data)`: append the chunk, then run the handler of the current stage once. -/
def onData (isIP : JsString → Nat) (c : Socks5Connection) (data : List Byte) :
    Socks5Connection :=
  let c1 := { c with buffer := c.buffer ++ data }
  match c1.stage with
  | Stage.greeting => handleGreeting c1
  | Stage.auth => handleAuth c1
  | Stage.request => handleRequest isIP c1
  | Stage.stream => c1

/-- JavaScript `close()`. -/
def close (c : Socks5Connection) : Socks5Connection :=
  if c.closed then c
  else
    let c1 := { c with closed := true }
    let c2 := if c1.remotes ≠ [] then emit c1 (Effect.remoteDestroy (c1.remotes.length - 1))
      else c1
    emit c2 Effect.socketDestroy

/-! ## Events -/

/-- The `code` of an error raised by the outbound socket. -/
inductive ErrCode where
  | ENOTFOUND
  | ECONNREFUSED
  | other
  deriving DecidableEq, Repr

/-- Events delivered to the listeners the connection registered. -/
inductive Event where
  /-- Event `"data"` on the client socket -/
  | socketData (chunk : List Byte)
  /-- Event `"error"` on the client socket -/
  | socketError
  /-- Event `"close"` on the client socket -/
  | socketClose
  /-- the connect callback of outbound socket `remote` -/
  | remoteConnect (remote : Nat)
  /-- Event `"data"` on outbound socket `remote` -/
  | remoteData (remote : Nat) (chunk : List Byte)
  /-- Event `"error"` on outbound socket `remote` -/
  | remoteError (remote : Nat) (code : ErrCode)
  /-- Event `"close"` on outbound socket `remote` -/
  | remoteClose (remote : Nat)
  deriving DecidableEq, Repr

/-- Has `destroy()` been called on outbound socket `i`? -/
def remoteDestroyed (c : Socks5Connection) (i : Nat) : Bool :=
  decide (Effect.remoteDestroy i ∈ c.trace)

/-- The connect callback passed to `net.createConnection` in `establishRemote`. -/
def onRemoteConnect (isIP : JsString → Nat) (c : Socks5Connection) (i : Nat) :
    Socks5Connection :=
  match c.remotes.get? i with
  | none => c
  | some (host, port) =>
    let c1 := writeReply isIP c REP_SUCCEEDED host port
    let c2 := { c1 with stage := Stage.stream }
    { emit c2 (Effect.pipe i) with piped := c2.piped ++ [i] }

/-- The `"error"` listener of the outbound socket. -/
def onRemoteError (isIP : JsString → Nat) (c : Socks5Connection) (code : ErrCode) :
    Socks5Connection :=
  if c.stage ≠ Stage.stream then
    let rep := match code with
      | ErrCode.ENOTFOUND => REP_HOST_UNREACHABLE
      | ErrCode.ECONNREFUSED => REP_CONN_REFUSED
      | ErrCode.other => REP_GENERAL_FAILURE
    close (writeReply isIP c rep defaultHost 0)
  else close c

/-- The listeners of `"data"` on the client socket, in registration order:
`onData` (from `setup`), the `bytesUp` counter added by each `establishRemote`
call made before this event, and the forwarding of the chunk to every outbound
socket the client socket is piped into. -/
def onSocketData (isIP : JsString → Nat) (c : Socks5Connection) (chunk : List Byte) :
    Socks5Connection :=
  let c1 := onData isIP c chunk
  let c2 := if c1.stage = Stage.stream then
      { c1 with bytesUp := c1.bytesUp + c.remotes.length * chunk.length }
    else c1
  c.piped.foldl (fun s i => emit s (Effect.remoteWrite i chunk)) c2

/-- One event. A destroyed socket delivers no data, an outbound socket connects
at most once and only if it was not destroyed, and it delivers data only once
connected. -/
def step (isIP : JsString → Nat) (c : Socks5Connection) : Event → Socks5Connection
  | Event.socketData chunk => if c.closed then c else onSocketData isIP c chunk
  | Event.socketError => close c
  | Event.socketClose => close c
  | Event.remoteConnect i =>
    if i ∈ c.piped ∨ remoteDestroyed c i then c else onRemoteConnect isIP c i
  | Event.remoteData i chunk =>
    if i ∈ c.piped ∧ ¬ remoteDestroyed c i then
      emit { c with bytesDown := c.bytesDown + chunk.length } (Effect.relayDown chunk)
    else c
  | Event.remoteError i code =>
    if i < c.remotes.length then onRemoteError isIP c code else c
  | Event.remoteClose i =>
    if i < c.remotes.length then close c else c

/-- A sequence of events, in order. -/
def run (isIP : JsString → Nat) (c : Socks5Connection) (events : List Event) :
    Socks5Connection :=
  events.foldl (step isIP) c

/-! ## Observations on a trace -/

/-- All bytes written to the client socket by the handshake, in order. -/
def clientBytes : List Effect → List Byte
  | [] => []
  | Effect.write bytes :: rest => bytes ++ clientBytes rest
  | _ :: rest => clientBytes rest

/-- The targets of the outbound connections requested, in order. -/
def connects : List Effect → List (JsString × Nat)
  | [] => []
  | Effect.createConnection host port :: rest => (host, port) :: connects rest
  | _ :: rest => connects rest

/-- All bytes forwarded to outbound socket `i`, in order. -/
def forwarded (i : Nat) : List Effect → List Byte
  | [] => []
  | Effect.remoteWrite j bytes :: rest =>
    if j = i then bytes ++ forwarded i rest else forwarded i rest
  | _ :: rest => forwarded i rest

/-! ## Well-formed protocol units -/

/-- The complete well-formed units of each handshake stage: a greeting with
`VER = 5`, an authentication message with `VER = 1`, and a CONNECT request with
`VER = 5`, `CMD = 1` and an IPv4, domain or IPv6 address. -/
inductive IsUnit : Stage → List Byte → Prop where
  | greeting (nmethods : Byte) (methods : List Byte) (h : methods.length = nmethods.val) :
    IsUnit Stage.greeting (5 :: nmethods :: methods)
  | auth (ulen : Byte) (uname : List Byte) (plen : Byte) (passwd : List Byte)
    (hu : uname.length = ulen.val) (hp : passwd.length = plen.val) :
    IsUnit Stage.auth (1 :: ulen :: (uname ++ plen :: passwd))
  | ipv4 (rsv a0 a1 a2 a3 p0 p1 : Byte) :
    IsUnit Stage.request [5, 1, rsv, 1, a0, a1, a2, a3, p0, p1]
  | domain (rsv dlen : Byte) (name : List Byte) (p0 p1 : Byte) (hn : name.length = dlen.val) :
    IsUnit Stage.request (5 :: 1 :: rsv :: 3 :: dlen :: (name ++ [p0, p1]))
  | ipv6 (rsv : Byte) (addr : List Byte) (p0 p1 : Byte) (ha : addr.length = 16) :
    IsUnit Stage.request (5 :: 1 :: rsv :: 4 :: (addr ++ [p0, p1]))

/-- Several `"data"` events in a row, each handled by `onData`. -/
def feed (isIP : JsString → Nat) (c : Socks5Connection) (chunks : List (List Byte)) :
    Socks5Connection :=
  chunks.foldl (onData isIP) c

/-- The same bytes delivered one byte per `"data"` event. -/
def bytewise (bytes : List Byte) : List (List Byte) := bytes.map (fun b => [b])

/-- UTF-8 bytes of one code point. -/
def utf8EncodeCodePoint (cp : Nat) : List Byte :=
  if cp < 0x80 then [toUint8 cp]
  else if cp < 0x800 then [toUint8 (0xC0 + cp / 64), toUint8 (0x80 + cp % 64)]
  else if cp < 0x10000 then
    [toUint8 (0xE0 + cp / 4096), toUint8 (0x80 + cp / 64 % 64), toUint8 (0x80 + cp % 64)]
  else
    [toUint8 (0xF0 + cp / 262144), toUint8 (0x80 + cp / 4096 % 64),
      toUint8 (0x80 + cp / 64 % 64), toUint8 (0x80 + cp % 64)]

/-- The bytes of a JavaScript string, `Buffer.from(s, "utf8")`: a surrogate pair
is one code point, a lone surrogate is written as U+FFFD. This is how a
configured credential is compared "byte for byte" with submitted bytes. -/
def utf8Encode : JsString → List Byte
  | [] => []
  | [u] => if 0xD800 ≤ u ∧ u < 0xE000 then [0xEF, 0xBF, 0xBD] else utf8EncodeCodePoint u
  | hi :: lo :: t =>
    if 0xD800 ≤ hi ∧ hi < 0xDC00 ∧ 0xDC00 ≤ lo ∧ lo < 0xE000 then
      utf8EncodeCodePoint (0x10000 + (hi - 0xD800) * 1024 + (lo - 0xDC00)) ++ utf8Encode t
    else if 0xD800 ≤ hi ∧ hi < 0xE000 then [0xEF, 0xBF, 0xBD] ++ utf8Encode (lo :: t)
    else utf8EncodeCodePoint hi ++ utf8Encode (lo :: t)

/-! ## Reply encoding, as the specification words it -/

/-- The byte with value `n`, for `n < 256`. -/
def byteOf (n : Nat) : Byte := ⟨n % 256, Nat.mod_lt _ (by decide)⟩

/-- The two bytes of a 16-bit value, most significant first. -/
def be16 (v : Nat) : List Byte := [byteOf (v / 256), byteOf (v % 256)]

/-- The dotted-quad string of four octets, e.g. `127.0.0.1`. -/
def dottedQuad (a b c d : Byte) : JsString :=
  join 46 [numToString 10 a.val, numToString 10 b.val, numToString 10 c.val,
    numToString 10 d.val]

/-- A colon-separated group of an IPv6 literal that is a hextet: at most four
hexadecimal digits; the empty group left by `::` counts, with value 0. -/
def isHextet (g : JsString) : Bool := decide (g.length ≤ 4) && g.all (isDigit 16)

/-- The number a hextet denotes. -/
def hextetValue (g : JsString) : Nat := digitsValue 16 g

/-- Stand-in for `net.isIP` on the hosts used below: `127.0.0.1` and `0.0.0.0` are
IPv4, `2001:db8:0:0:0:0:0:1` and `::1` are IPv6, anything else is not an address. -/
def demoIsIP (h : JsString) : Nat :=
  if h = [49, 50, 55, 46, 48, 46, 48, 46, 49] then 4
  else if h = [48, 46, 48, 46, 48, 46, 48] then 4
  else if h = [50, 48, 48, 49, 58, 100, 98, 56, 58, 48, 58, 48, 58, 48, 58, 48, 58, 48, 58, 49]
    then 6
  else if h = [58, 58, 49] then 6
  else 0

/-! ## Request decoding, as the specification words it -/

/-- The 16-bit groups of an address, each read big-endian from two bytes. -/
def groups16 : List Byte → List Nat
  | hi :: lo :: rest => (256 * hi.val + lo.val) :: groups16 rest
  | _ => []

/-- Reference decoding of the target of a CONNECT request, following the
wording of the specification: the address bytes after `ATYP` rendered as a
dotted-decimal string (IPv4), decoded as UTF-8 (domain, `DLEN` bytes after the
length byte) or rendered as colon-separated lowercase hexadecimal groups (IPv6),
and the port read big-endian from the two bytes right after the address. -/
def refTarget : List Byte → Option (JsString × Nat)
  | _ :: _ :: _ :: atyp :: tail =>
    if atyp.val = 1 then
      match tail with
      | a0 :: a1 :: a2 :: a3 :: p0 :: p1 :: _ =>
        some (dottedQuad a0 a1 a2 a3, 256 * p0.val + p1.val)
      | _ => none
    else if atyp.val = 3 then
      match tail with
      | dlen :: rest =>
        match rest.drop dlen.val with
        | p0 :: p1 :: _ => some (utf8Decode (rest.take dlen.val), 256 * p0.val + p1.val)
        | _ => none
      | [] => none
    else if atyp.val = 4 then
      match tail.drop 16 with
      | p0 :: p1 :: _ =>
        some (join 58 ((groups16 (tail.take 16)).map (numToString 16)), 256 * p0.val + p1.val)
      | _ => none
    else none
  | _ => none

/-! ## Stage order, failure replies, IPv6 strings -/

/-- Position of a stage in the order greeting, auth, request, stream. -/
def Stage.rank : Stage → Nat
  | Stage.greeting => 0
  | Stage.auth => 1
  | Stage.request => 2
  | Stage.stream => 3

/-- The reply code the specification assigns to an outbound error: host not found
is HostUnreachable, connection refused is ConnectionRefused, anything else is
GeneralFailure. -/
def failureCode : ErrCode → Byte
  | ErrCode.ENOTFOUND => 4
  | ErrCode.ECONNREFUSED => 5
  | ErrCode.other => 1

/-- A failure reply with the bound address `0.0.0.0:0`. -/
def failureReply (code : Byte) : List Byte := [5, code, 0, 1, 0, 0, 0, 0, 0, 0]

/-- The colon-separated string of a 16-byte address: eight big-endian groups in
lowercase hexadecimal without leading zeros. -/
def ipv6String (addr : List Byte) : JsString :=
  join 58 ((groups16 addr).map (numToString 16))

/-- The buffer starts a unit with the wrong version byte: in stage greeting or
request at least the fixed header is there and the first byte is not 5, in stage
auth at least two bytes are there and the first is not 1. -/
def wrongVersion : Stage → List Byte → Bool
  | Stage.greeting, b => decide (2 ≤ b.length) && decide (byteAt b 0 ≠ 5)
  | Stage.auth, b => decide (2 ≤ b.length) && decide (byteAt b 0 ≠ 1)
  | Stage.request, b => decide (4 ≤ b.length) && decide (byteAt b 0 ≠ 5)
  | Stage.stream, _ => false

/-! ## Configuration loader (`src/config.js`) -/

/-- The environment variables read by `loadConfig`. -/
inductive EnvVar where
  | PROXY_PORT
  | PROXY_USER
  | PROXY_PASS
  | LOG_LEVEL
  deriving DecidableEq, Repr

/-- The process environment, `process.env[name]`; `none` is `undefined` (the
variable is unset). -/
abbrev Env := EnvVar → Option JsString

/-- JavaScript `getEnv(name, def)`; the default may be `undefined`. -/
def getEnv (env : Env) (name : EnvVar) (dflt : Option JsString) : Option JsString :=
  match env name with
  | none => dflt
  | some v => if v = [] then dflt else some v

/-- The object returned by `loadConfig`. -/
structure Config where
  port : Int
  username : JsString
  password : JsString
  logLevel : JsString
  deriving DecidableEq, Repr

/-- The errors `loadConfig` can end with: its two `throw`s, and the `TypeError`
of calling `toLowerCase` on `undefined`. -/
inductive ConfigError where
  | invalidPort (portRaw : Option JsString)
  | missingCredentials
  | typeError
  deriving DecidableEq, Repr

/-- The outcome of `loadConfig`: the object it returns or the error it throws. -/
inductive ConfigResult where
  | ok (config : Config)
  | error (e : ConfigError)
  deriving DecidableEq, Repr

/-- JavaScript `!v` for a value that is a string or `undefined`. -/
def falsy : Option JsString → Bool
  | none => true
  | some s => decide (s = [])

/-- The string `"1080"`. -/
def defaultPort : JsString := [49, 48, 56, 48]

/-- The string `"info"`. -/
def defaultLogLevel : JsString := [105, 110, 102, 111]

/-- JavaScript `loadConfig()` on the environment `env`. `toLowerCase` is
`String.prototype.toLowerCase` of the runtime. `parseInt(undefined, 10)` is `NaN`. -/
def loadConfig (toLowerCase : JsString → JsString) (env : Env) : ConfigResult :=
  let portRaw := getEnv env EnvVar.PROXY_PORT (some defaultPort)
  let port : Option Int := match portRaw with
    | none => none
    | some s => parseInt s 10
  match port with
  | none => ConfigResult.error (ConfigError.invalidPort portRaw)
  | some p =>
    if p ≤ 0 ∨ p > 65535 then ConfigResult.error (ConfigError.invalidPort portRaw)
    else
      let username := getEnv env EnvVar.PROXY_USER none
      let password := getEnv env EnvVar.PROXY_PASS none
      if falsy username ∨ falsy password then ConfigResult.error ConfigError.missingCredentials
      else
        match username, password, getEnv env EnvVar.LOG_LEVEL (some defaultLogLevel) with
        | some u, some w, some l => ConfigResult.ok ⟨p, u, w, toLowerCase l⟩
        | _, _, _ => ConfigResult.error ConfigError.typeError

/-- Is the string a port number as the specification means it: a decimal numeral
with value in `1..65535`? -/
def isPortNumeral (s : JsString) : Bool :=
  decide (s ≠ []) && s.all (isDigit 10) &&
    decide (1 ≤ digitsValue 10 s) && decide (digitsValue 10 s ≤ 65535)

/-- An environment with the given port, user `u` and password `p`. -/
def demoEnv (port : Option JsString) : Env
  | EnvVar.PROXY_PORT => port
  | EnvVar.PROXY_USER => some [117]
  | EnvVar.PROXY_PASS => some [112]
  | EnvVar.LOG_LEVEL => none

/-! ## Buffer lemmas -/

theorem byteAt_zero (b : Byte) (l : List Byte) : byteAt (b :: l) 0 = b.val := rfl

theorem byteAt_succ (b : Byte) (l : List Byte) (i : Nat) :
    byteAt (b :: l) (i + 1) = byteAt l i := by
  simp [byteAt]

theorem byteAt_append_right (l r : List Byte) (i : Nat) :
    byteAt (l ++ r) (l.length + i) = byteAt r i := by
  induction l with
  | nil => simp
  | cons b l ih =>
    have : (b :: l).length + i = (l.length + i) + 1 := by simp; omega
    rw [this, List.cons_append, byteAt_succ, ih]

theorem byteAt_take (u : List Byte) (k i : Nat) (h : i < k) :
    byteAt (u.take k) i = byteAt u i := by
  induction u generalizing k i with
  | nil => simp
  | cons b u ih =>
    cases k with
    | zero => omega
    | succ k =>
      cases i with
      | zero => simp [byteAt]
      | succ i =>
        rw [List.take_succ_cons, byteAt_succ, byteAt_succ]
        exact ih k i (by omega)

theorem mem_map_val (n : Nat) (hn : n < 256) (l : List Byte) :
    n ∈ l.map Fin.val ↔ (⟨n, hn⟩ : Byte) ∈ l := by
  constructor
  · intro h
    obtain ⟨b, hb, hbn⟩ := List.mem_map.1 h
    have : b = ⟨n, hn⟩ := Fin.ext hbn
    exact this ▸ hb
  · intro h
    exact List.mem_map.2 ⟨_, h, rfl⟩

theorem drop_unit {α : Type} (l r : List α) (n : Nat) (h : l.length = n) :
    (l ++ r).drop n = r := by
  subst h; simp

theorem take_unit {α : Type} (l r : List α) (n : Nat) (h : l.length = n) :
    (l ++ r).take n = l := by
  subst h; simp

/-- A buffer that needs more bytes to become `u` is `u` cut at its own length. -/
theorem eq_take_of_append {α : Type} (b rest u : List α) (h : b ++ rest = u) :
    b = u.take b.length := by
  subst h; simp

/-! ## Greeting -/

theorem handleGreeting_unit (c : Socks5Connection) (nm : Byte) (methods rest : List Byte)
    (hbuf : c.buffer = 5 :: nm :: (methods ++ rest)) (hlen : methods.length = nm.val) :
    handleGreeting c =
      if (2 : Byte) ∈ methods then
        { c with buffer := rest, stage := Stage.auth, trace := c.trace ++ [Effect.write [5, 2]] }
      else
        { c with buffer := rest,
                 trace := c.trace ++ [Effect.write [5, 255], Effect.socketEnd] } := by
  have h2 := mem_map_val 2 (by decide) methods
  have hd : List.drop (2 + nm.val) (5 :: nm :: (methods ++ rest)) = rest := by
    rw [show 2 + nm.val = nm.val + 1 + 1 by omega]
    simp [drop_unit methods rest _ hlen]
  have ht : List.take nm.val (methods ++ rest) = methods := take_unit methods rest _ hlen
  unfold handleGreeting
  simp only [needBytes, byteAt, slice, consume, writeMethodSelection, emit, hbuf]
  simp [hlen, h2, hd, ht, Fin.coe_ofNat_eq_mod, toUint8]
  intro h
  omega

theorem handleGreeting_short (c : Socks5Connection) (nm : Byte) (methods : List Byte) (k : Nat)
    (hlen : methods.length = nm.val) (hk : k < 2 + nm.val)
    (hbuf : c.buffer = (5 :: nm :: methods).take k) : handleGreeting c = c := by
  unfold handleGreeting
  by_cases h2 : k < 2
  · simp [needBytes, hbuf, hlen]
    intro h; omega
  · have h0 : byteAt c.buffer 0 = 5 := by
      rw [hbuf, byteAt_take _ _ _ (by omega)]; rfl
    have h1 : byteAt c.buffer 1 = nm.val := by
      rw [hbuf, byteAt_take _ _ _ (by omega)]; rfl
    have hl : c.buffer.length = k := by
      rw [hbuf]; simp; omega
    simp [needBytes, h0, h1, hl]
    intro h3 h4; omega

/-! ## Authentication -/

theorem drop_unit_succ {α : Type} (l r : List α) (x : α) (n : Nat) (h : l.length = n) :
    (l ++ x :: r).drop (n + 1) = r := by
  subst h; simp

theorem handleAuth_unit (c : Socks5Connection) (ulen plen : Byte) (uname passwd rest : List Byte)
    (hbuf : c.buffer = 1 :: ulen :: (uname ++ plen :: (passwd ++ rest)))
    (hu : uname.length = ulen.val) (hp : passwd.length = plen.val) :
    handleAuth c =
      if utf8Decode uname = c.creds.username ∧ utf8Decode passwd = c.creds.password then
        { c with buffer := rest, stage := Stage.request,
                 trace := c.trace ++ [Effect.write [1, 0]] }
      else
        { c with buffer := rest,
                 trace := c.trace ++ [Effect.write [1, 1], Effect.socketEnd] } := by
  have hplen : byteAt c.buffer (2 + ulen.val) = plen.val := by
    have h := byteAt_append_right uname (plen :: (passwd ++ rest)) 0
    rw [hbuf, show 2 + ulen.val = ulen.val + 1 + 1 by omega, byteAt_succ, byteAt_succ, ← hu]
    simpa using h
  have hul : byteAt c.buffer 1 = ulen.val := by rw [hbuf]; rfl
  have hv : byteAt c.buffer 0 = 1 := by rw [hbuf]; rfl
  have hlen : c.buffer.length = 2 + ulen.val + 1 + plen.val + rest.length := by
    rw [hbuf]; simp; omega
  have hsu : slice c.buffer 2 (2 + ulen.val) = uname := by
    rw [hbuf]
    simp [slice, take_unit uname _ _ hu]
  have hsp : slice c.buffer (2 + ulen.val + 1) (2 + ulen.val + 1 + plen.val) = passwd := by
    rw [hbuf, show 2 + ulen.val + 1 = ulen.val + 1 + 1 + 1 by omega]
    simp only [slice, List.drop_succ_cons]
    rw [drop_unit_succ uname _ _ _ hu,
      show ulen.val + 1 + 1 + 1 + plen.val - (ulen.val + 1 + 1 + 1) = plen.val by omega,
      take_unit passwd _ _ hp]
  have hd : c.buffer.drop (2 + ulen.val + 1 + plen.val) = rest := by
    have h1 : List.drop (ulen.val + 1) (uname ++ plen :: (passwd ++ rest)) = passwd ++ rest :=
      drop_unit_succ uname _ _ _ hu
    rw [hbuf, show 2 + ulen.val + 1 + plen.val = ((ulen.val + 1) + plen.val) + 1 + 1 by omega]
    simp only [List.drop_succ_cons]
    rw [← List.drop_drop, h1, drop_unit passwd _ _ hp]
  unfold handleAuth
  simp only [needBytes, consume, writeAuthStatus, emit, hplen, hul, hv, hlen, hsu, hsp, hd]
  by_cases hok : utf8Decode uname = c.creds.username ∧ utf8Decode passwd = c.creds.password
  · simp only [hok, toUint8]
    simp
    rw [if_neg (by omega), if_neg (by omega)]
  · simp only [hok, toUint8]
    simp
    rw [if_neg (by omega), if_neg (by omega)]

theorem byteAt_auth_plen (ulen plen : Byte) (uname t : List Byte)
    (hu : uname.length = ulen.val) :
    byteAt (1 :: ulen :: (uname ++ plen :: t)) (2 + ulen.val) = plen.val := by
  have h := byteAt_append_right uname (plen :: t) 0
  rw [show 2 + ulen.val = ulen.val + 1 + 1 by omega, byteAt_succ, byteAt_succ, ← hu]
  simpa using h

theorem handleAuth_short (c : Socks5Connection) (ulen plen : Byte) (uname passwd : List Byte)
    (k : Nat) (hu : uname.length = ulen.val) (hp : passwd.length = plen.val)
    (hk : k < 3 + ulen.val + plen.val)
    (hbuf : c.buffer = (1 :: ulen :: (uname ++ plen :: passwd)).take k) : handleAuth c = c := by
  have hl : c.buffer.length = k := by
    rw [hbuf]; simp; omega
  unfold handleAuth
  by_cases h2 : k < 2
  · simp [needBytes, hl]
    intro h; omega
  · have h0 : byteAt c.buffer 0 = 1 := by
      rw [hbuf, byteAt_take _ _ _ (by omega)]; rfl
    have h1 : byteAt c.buffer 1 = ulen.val := by
      rw [hbuf, byteAt_take _ _ _ (by omega)]; rfl
    by_cases h3 : k < 2 + ulen.val + 1
    · simp [needBytes, hl, h0, h1]
      intro _ h; omega
    · have hpl : byteAt c.buffer (2 + ulen.val) = plen.val := by
        rw [hbuf, byteAt_take _ _ _ (by omega), byteAt_auth_plen _ _ _ _ hu]
      simp [needBytes, hl, h0, h1, hpl]
      intro _ _ h; omega

/-! ## Request -/

theorem handleRequest_ipv4 (isIP : JsString → Nat) (c : Socks5Connection)
    (rsv a0 a1 a2 a3 p0 p1 : Byte) (rest : List Byte)
    (hbuf : c.buffer = 5 :: 1 :: rsv :: 1 :: a0 :: a1 :: a2 :: a3 :: p0 :: p1 :: rest) :
    handleRequest isIP c =
      establishRemote { c with buffer := rest }
        (join 46 [numToString 10 a0.val, numToString 10 a1.val, numToString 10 a2.val,
          numToString 10 a3.val])
        (256 * p0.val + p1.val) := by
  unfold handleRequest
  simp [needBytes, byteAt, slice, consume, readUInt16BE, hbuf, Fin.coe_ofNat_eq_mod]

theorem handleRequest_domain (isIP : JsString → Nat) (c : Socks5Connection)
    (rsv dlen : Byte) (name : List Byte) (p0 p1 : Byte) (rest : List Byte)
    (hn : name.length = dlen.val)
    (hbuf : c.buffer = 5 :: 1 :: rsv :: 3 :: dlen :: (name ++ p0 :: p1 :: rest)) :
    handleRequest isIP c =
      establishRemote { c with buffer := rest } (utf8Decode name) (256 * p0.val + p1.val) := by
  have hl : c.buffer.length = 4 + 1 + dlen.val + 2 + rest.length := by
    rw [hbuf]; simp; omega
  have h0 : byteAt c.buffer 0 = 5 := by rw [hbuf]; rfl
  have h1 : byteAt c.buffer 1 = 1 := by rw [hbuf]; rfl
  have h3 : byteAt c.buffer 3 = 3 := by rw [hbuf]; rfl
  have h4 : byteAt c.buffer 4 = dlen.val := by rw [hbuf]; rfl
  have hs : slice c.buffer 5 (5 + dlen.val) = name := by
    rw [hbuf]; simp [slice, take_unit name _ _ hn]
  have hq0 : byteAt c.buffer (5 + dlen.val) = p0.val := by
    have h := byteAt_append_right name (p0 :: p1 :: rest) 0
    rw [hbuf, show 5 + dlen.val = dlen.val + 1 + 1 + 1 + 1 + 1 by omega]
    simp only [byteAt_succ]
    rw [← hn]
    simpa using h
  have hq1 : byteAt c.buffer (5 + dlen.val + 1) = p1.val := by
    have h := byteAt_append_right name (p0 :: p1 :: rest) 1
    rw [hbuf, show 5 + dlen.val + 1 = (dlen.val + 1) + 1 + 1 + 1 + 1 + 1 by omega]
    simp only [byteAt_succ]
    rw [← hn]
    simpa using h
  have hd : c.buffer.drop (4 + 1 + dlen.val + 2) = rest := by
    rw [hbuf, show 4 + 1 + dlen.val + 2 = (dlen.val + 1 + 1) + 1 + 1 + 1 + 1 + 1 by omega]
    simp only [List.drop_succ_cons]
    rw [show name ++ p0 :: p1 :: rest = (name ++ [p0]) ++ p1 :: rest by simp]
    exact drop_unit_succ _ _ _ _ (by simp [hn])
  unfold handleRequest
  have hne : ¬ (5 + dlen.val + 2 + rest.length < 5) := by omega
  simp only [needBytes, consume, readUInt16BE, hl, h0, h1, h3, h4, hs, hq0, hq1, hd]
  simp [hne]
  intro h
  omega

theorem handleRequest_ipv6 (isIP : JsString → Nat) (c : Socks5Connection)
    (rsv : Byte) (addr : List Byte) (p0 p1 : Byte) (rest : List Byte)
    (ha : addr.length = 16)
    (hbuf : c.buffer = 5 :: 1 :: rsv :: 4 :: (addr ++ p0 :: p1 :: rest)) :
    handleRequest isIP c =
      establishRemote { c with buffer := rest }
        (join 58 ([0, 2, 4, 6, 8, 10, 12, 14].map
          (fun i => numToString 16 (readUInt16BE addr i))))
        (256 * p0.val + p1.val) := by
  match addr, ha with
  | [b0, b1, b2, b3, b4, b5, b6, b7, b8, b9, b10, b11, b12, b13, b14, b15], _ =>
    unfold handleRequest
    simp [needBytes, byteAt, slice, consume, readUInt16BE, hbuf, Fin.coe_ofNat_eq_mod]

theorem handleRequest_short (isIP : JsString → Nat) (c : Socks5Connection) (u : List Byte)
    (k : Nat) (hu : IsUnit Stage.request u) (hk : k < u.length) (hbuf : c.buffer = u.take k) :
    handleRequest isIP c = c := by
  have hl : c.buffer.length = k := by
    rw [hbuf]; simp; omega
  unfold handleRequest
  by_cases h4 : k < 4
  · simp [needBytes, hl]
    intro h; omega
  · cases hu with
    | ipv4 rsv a0 a1 a2 a3 p0 p1 =>
      have e0 : byteAt c.buffer 0 = 5 := by rw [hbuf, byteAt_take _ _ _ (by omega)]; rfl
      have e1 : byteAt c.buffer 1 = 1 := by rw [hbuf, byteAt_take _ _ _ (by omega)]; rfl
      have e3 : byteAt c.buffer 3 = 1 := by rw [hbuf, byteAt_take _ _ _ (by omega)]; rfl
      simp at hk
      simp only [needBytes, hl, e0, e1, e3]
      simp
      intro _ h; omega
    | domain rsv dlen name p0 p1 hn =>
      have e0 : byteAt c.buffer 0 = 5 := by rw [hbuf, byteAt_take _ _ _ (by omega)]; rfl
      have e1 : byteAt c.buffer 1 = 1 := by rw [hbuf, byteAt_take _ _ _ (by omega)]; rfl
      have e3 : byteAt c.buffer 3 = 3 := by rw [hbuf, byteAt_take _ _ _ (by omega)]; rfl
      simp at hk
      by_cases h5 : k < 5
      · simp only [needBytes, hl, e0, e1, e3]
        simp
        intro _ h; omega
      · have e4 : byteAt c.buffer 4 = dlen.val := by
          rw [hbuf, byteAt_take _ _ _ (by omega)]; rfl
        simp only [needBytes, hl, e0, e1, e3, e4]
        simp
        intro _ _ h; omega
    | ipv6 rsv addr p0 p1 ha =>
      have e0 : byteAt c.buffer 0 = 5 := by rw [hbuf, byteAt_take _ _ _ (by omega)]; rfl
      have e1 : byteAt c.buffer 1 = 1 := by rw [hbuf, byteAt_take _ _ _ (by omega)]; rfl
      have e3 : byteAt c.buffer 3 = 4 := by rw [hbuf, byteAt_take _ _ _ (by omega)]; rfl
      simp at hk
      simp only [needBytes, hl, e0, e1, e3]
      simp
      intro _ h; omega

theorem handleRequest_unit (isIP : JsString → Nat) (c : Socks5Connection)
    (u trailing : List Byte) (hu : IsUnit Stage.request u) (hbuf : c.buffer = u ++ trailing) :
    ∃ host port, refTarget u = some (host, port) ∧
      handleRequest isIP c = establishRemote { c with buffer := trailing } host port := by
  cases hu with
  | ipv4 rsv a0 a1 a2 a3 p0 p1 =>
    refine ⟨_, _, ?_, handleRequest_ipv4 isIP c rsv a0 a1 a2 a3 p0 p1 trailing (by simpa using hbuf)⟩
    simp [refTarget, dottedQuad, Fin.coe_ofNat_eq_mod]
  | domain rsv dlen name p0 p1 hn =>
    refine ⟨_, _, ?_, handleRequest_domain isIP c rsv dlen name p0 p1 trailing hn
      (by simpa using hbuf)⟩
    simp [refTarget, Fin.coe_ofNat_eq_mod, drop_unit name _ _ hn, take_unit name _ _ hn]
  | ipv6 rsv addr p0 p1 ha =>
    refine ⟨_, _, ?_, handleRequest_ipv6 isIP c rsv addr p0 p1 trailing ha
      (by simpa using hbuf)⟩
    match addr, ha with
    | [b0, b1, b2, b3, b4, b5, b6, b7, b8, b9, b10, b11, b12, b13, b14, b15], _ =>
      simp [refTarget, groups16, readUInt16BE, byteAt, Fin.coe_ofNat_eq_mod]

/-! ## Dispatch on the stage -/

theorem onData_greeting (isIP : JsString → Nat) (c : Socks5Connection) (data : List Byte)
    (h : c.stage = Stage.greeting) :
    onData isIP c data = handleGreeting { c with buffer := c.buffer ++ data } := by
  obtain ⟨cr, st, buf, rs, pp, up, dn, cl, tr⟩ := c
  simp only at h
  subst h
  rfl

theorem onData_auth (isIP : JsString → Nat) (c : Socks5Connection) (data : List Byte)
    (h : c.stage = Stage.auth) :
    onData isIP c data = handleAuth { c with buffer := c.buffer ++ data } := by
  obtain ⟨cr, st, buf, rs, pp, up, dn, cl, tr⟩ := c
  simp only at h
  subst h
  rfl

theorem onData_request (isIP : JsString → Nat) (c : Socks5Connection) (data : List Byte)
    (h : c.stage = Stage.request) :
    onData isIP c data = handleRequest isIP { c with buffer := c.buffer ++ data } := by
  obtain ⟨cr, st, buf, rs, pp, up, dn, cl, tr⟩ := c
  simp only at h
  subst h
  rfl

theorem onData_incomplete (isIP : JsString → Nat) (c : Socks5Connection)
    (chunk u rest : List Byte) (hu : IsUnit c.stage u) (hrest : rest ≠ [])
    (hpre : (c.buffer ++ chunk) ++ rest = u) :
    onData isIP c chunk = { c with buffer := c.buffer ++ chunk } := by
  have hk : (c.buffer ++ chunk).length < u.length := by
    have hr : 0 < rest.length := List.length_pos.2 hrest
    have hl := congrArg List.length hpre
    simp only [List.length_append] at hl
    simp only [List.length_append]
    omega
  have htake : c.buffer ++ chunk = u.take (c.buffer ++ chunk).length :=
    eq_take_of_append _ rest u hpre
  have key : ∀ st, IsUnit st u → c.stage = st →
      onData isIP c chunk = { c with buffer := c.buffer ++ chunk } := by
    intro st hu hst
    cases hu with
    | greeting nm methods hlen =>
      rw [onData_greeting isIP c _ hst]
      exact handleGreeting_short { c with buffer := c.buffer ++ chunk } nm methods _ hlen
        (by simp only [List.length_cons] at hk; omega) htake
    | auth ulen uname plen passwd hul hpl =>
      rw [onData_auth isIP c _ hst]
      exact handleAuth_short { c with buffer := c.buffer ++ chunk } ulen plen uname passwd _ hul hpl
        (by simp only [List.length_cons, List.length_append] at hk ⊢; omega) htake
    | ipv4 rsv a0 a1 a2 a3 p0 p1 =>
      rw [onData_request isIP c _ hst]
      exact handleRequest_short isIP { c with buffer := c.buffer ++ chunk } _ _
        (IsUnit.ipv4 rsv a0 a1 a2 a3 p0 p1) hk htake
    | domain rsv dlen name p0 p1 hn =>
      rw [onData_request isIP c _ hst]
      exact handleRequest_short isIP { c with buffer := c.buffer ++ chunk } _ _
        (IsUnit.domain rsv dlen name p0 p1 hn) hk htake
    | ipv6 rsv addr p0 p1 ha =>
      rw [onData_request isIP c _ hst]
      exact handleRequest_short isIP { c with buffer := c.buffer ++ chunk } _ _
        (IsUnit.ipv6 rsv addr p0 p1 ha) hk htake
  exact key _ hu rfl

/-! ## Chunking of the handshake -/

theorem feed_append (isIP : JsString → Nat) (c : Socks5Connection) (xs ys : List (List Byte)) :
    feed isIP c (xs ++ ys) = feed isIP (feed isIP c xs) ys := by
  simp [feed, List.foldl_append]

theorem bytewise_append (a b : List Byte) : bytewise (a ++ b) = bytewise a ++ bytewise b := by
  simp [bytewise]

theorem onData_append_buffer (isIP : JsString → Nat) (c : Socks5Connection) (a b : List Byte) :
    onData isIP { c with buffer := c.buffer ++ a } b = onData isIP c (a ++ b) := by
  unfold onData
  simp [List.append_assoc]

/-- Delivering the bytes that complete one unit one at a time has the effect of
delivering them in one chunk. -/
theorem feed_bytewise_unit (isIP : JsString → Nat) (u : List Byte) :
    ∀ (bytes : List Byte) (c : Socks5Connection), IsUnit c.stage u → c.buffer ++ bytes = u →
      bytes ≠ [] → feed isIP c (bytewise bytes) = onData isIP c bytes := by
  intro bytes
  induction bytes with
  | nil => intro c _ _ h; exact absurd rfl h
  | cons x xs ih =>
    intro c hu hbuf _
    cases xs with
    | nil => rfl
    | cons y ys =>
      have h1 : onData isIP c [x] = { c with buffer := c.buffer ++ [x] } :=
        onData_incomplete isIP c [x] u (y :: ys) hu (by simp) (by simpa using hbuf)
      have h2 : feed isIP c (bytewise (x :: y :: ys)) =
          feed isIP (onData isIP c [x]) (bytewise (y :: ys)) := rfl
      rw [h2, h1, ih { c with buffer := c.buffer ++ [x] } hu (by simpa using hbuf) (by simp),
        onData_append_buffer]
      rfl

theorem onData_greeting_unit (isIP : JsString → Nat) (c : Socks5Connection) (chunk : List Byte)
    (nm : Byte) (methods rest : List Byte) (hstage : c.stage = Stage.greeting)
    (hbuf : c.buffer ++ chunk = 5 :: nm :: (methods ++ rest))
    (hlen : methods.length = nm.val) (hmem : (2 : Byte) ∈ methods) :
    onData isIP c chunk =
      { c with buffer := rest, stage := Stage.auth,
               trace := c.trace ++ [Effect.write [5, 2]] } := by
  rw [onData_greeting isIP c _ hstage,
    handleGreeting_unit { c with buffer := c.buffer ++ chunk } nm methods rest hbuf hlen,
    if_pos hmem]

theorem onData_auth_unit (isIP : JsString → Nat) (c : Socks5Connection) (chunk : List Byte)
    (ulen plen : Byte) (uname passwd rest : List Byte) (hstage : c.stage = Stage.auth)
    (hbuf : c.buffer ++ chunk = 1 :: ulen :: (uname ++ plen :: (passwd ++ rest)))
    (hu : uname.length = ulen.val) (hp : passwd.length = plen.val)
    (hname : utf8Decode uname = c.creds.username)
    (hpass : utf8Decode passwd = c.creds.password) :
    onData isIP c chunk =
      { c with buffer := rest, stage := Stage.request,
               trace := c.trace ++ [Effect.write [1, 0]] } := by
  rw [onData_auth isIP c _ hstage,
    handleAuth_unit { c with buffer := c.buffer ++ chunk } ulen plen uname passwd rest hbuf hu hp,
    if_pos ⟨hname, hpass⟩]

theorem onData_request_unit (isIP : JsString → Nat) (c : Socks5Connection)
    (chunk u trailing : List Byte) (hstage : c.stage = Stage.request)
    (hu : IsUnit Stage.request u) (hbuf : c.buffer ++ chunk = u ++ trailing) :
    ∃ host port, refTarget u = some (host, port) ∧
      onData isIP c chunk = establishRemote { c with buffer := trailing } host port := by
  rw [onData_request isIP c _ hstage]
  exact handleRequest_unit isIP { c with buffer := c.buffer ++ chunk } u trailing hu hbuf

theorem connects_append (l₁ l₂ : List Effect) :
    connects (l₁ ++ l₂) = connects l₁ ++ connects l₂ := by
  induction l₁ with
  | nil => rfl
  | cons e l ih => cases e <;> simp [connects, ih]

theorem clientBytes_append (l₁ l₂ : List Effect) :
    clientBytes (l₁ ++ l₂) = clientBytes l₁ ++ clientBytes l₂ := by
  induction l₁ with
  | nil => rfl
  | cons e l ih => cases e <;> simp [clientBytes, ih]

theorem forwarded_append (i : Nat) (l₁ l₂ : List Effect) :
    forwarded i (l₁ ++ l₂) = forwarded i l₁ ++ forwarded i l₂ := by
  induction l₁ with
  | nil => rfl
  | cons e l ih =>
    cases e <;> simp [forwarded, ih]
    split <;> simp

/-- The state after a whole handshake delivered one unit per event. -/
theorem feed_unitwise (isIP : JsString → Nat) (creds : Credentials)
    (nm : Byte) (methods : List Byte) (ulen plen : Byte) (uname passwd r : List Byte)
    (hlen : methods.length = nm.val) (hmem : (2 : Byte) ∈ methods)
    (hu : uname.length = ulen.val) (hp : passwd.length = plen.val)
    (hname : utf8Decode uname = creds.username) (hpass : utf8Decode passwd = creds.password)
    (hr : IsUnit Stage.request r) :
    ∃ host port, refTarget r = some (host, port) ∧
      feed isIP (Socks5Connection.new creds)
          [5 :: nm :: methods, 1 :: ulen :: (uname ++ plen :: passwd), r] =
        { Socks5Connection.new creds with
          stage := Stage.request, remotes := [(host, port)],
          trace := [Effect.write [5, 2], Effect.write [1, 0],
            Effect.createConnection host port] } := by
  have h1 := onData_greeting_unit isIP (Socks5Connection.new creds) (5 :: nm :: methods)
    nm methods [] rfl (by simp [Socks5Connection.new]) hlen hmem
  show ∃ host port, refTarget r = some (host, port) ∧
    onData isIP (onData isIP (onData isIP _ _) _) _ = _
  rw [h1, onData_auth_unit isIP _ (1 :: ulen :: (uname ++ plen :: passwd)) ulen plen uname passwd
    [] rfl (by simp) hu hp hname hpass]
  obtain ⟨host, port, ht, h3⟩ := onData_request_unit isIP
    (Socks5Connection.mk creds Stage.request [] [] [] 0 0 false
      [Effect.write [5, 2], Effect.write [1, 0]])
    r r [] rfl hr (by simp)
  exact ⟨host, port, ht, h3⟩

theorem isUnit_ne_nil (st : Stage) (u : List Byte) (h : IsUnit st u) : u ≠ [] := by
  cases h <;> simp

/-- One byte per event and one unit per event lead to the same state. -/
theorem feed_bytewise_handshake (isIP : JsString → Nat) (creds : Credentials)
    (nm : Byte) (methods : List Byte) (ulen plen : Byte) (uname passwd r : List Byte)
    (hlen : methods.length = nm.val) (hmem : (2 : Byte) ∈ methods)
    (hu : uname.length = ulen.val) (hp : passwd.length = plen.val)
    (hname : utf8Decode uname = creds.username) (hpass : utf8Decode passwd = creds.password)
    (hr : IsUnit Stage.request r) :
    feed isIP (Socks5Connection.new creds)
        (bytewise ((5 :: nm :: methods) ++ (1 :: ulen :: (uname ++ plen :: passwd)) ++ r)) =
      feed isIP (Socks5Connection.new creds)
        [5 :: nm :: methods, 1 :: ulen :: (uname ++ plen :: passwd), r] := by
  have h1 := onData_greeting_unit isIP (Socks5Connection.new creds) (5 :: nm :: methods)
    nm methods [] rfl (by simp [Socks5Connection.new]) hlen hmem
  rw [bytewise_append, bytewise_append, feed_append, feed_append,
    feed_bytewise_unit isIP (5 :: nm :: methods) (5 :: nm :: methods) (Socks5Connection.new creds)
      (IsUnit.greeting nm methods hlen) (by simp [Socks5Connection.new]) (by simp),
    h1,
    feed_bytewise_unit isIP (1 :: ulen :: (uname ++ plen :: passwd))
      (1 :: ulen :: (uname ++ plen :: passwd)) _
      (IsUnit.auth ulen uname plen passwd hu hp) (by simp) (by simp),
    onData_auth_unit isIP _ (1 :: ulen :: (uname ++ plen :: passwd)) ulen plen uname passwd
      [] rfl (by simp) hu hp hname hpass,
    feed_bytewise_unit isIP r r _ hr (by simp) (isUnit_ne_nil _ _ hr)]
  show _ = onData isIP (onData isIP (onData isIP _ _) _) _
  rw [h1, onData_auth_unit isIP _ (1 :: ulen :: (uname ++ plen :: passwd)) ulen plen uname passwd
    [] rfl (by simp) hu hp hname hpass]

/-- The whole handshake in one chunk: only the greeting is handled. -/
theorem feed_single_chunk (isIP : JsString → Nat) (creds : Credentials)
    (nm : Byte) (methods rest : List Byte)
    (hlen : methods.length = nm.val) (hmem : (2 : Byte) ∈ methods) :
    feed isIP (Socks5Connection.new creds) [(5 :: nm :: methods) ++ rest] =
      { Socks5Connection.new creds with
        buffer := rest, stage := Stage.auth, trace := [Effect.write [5, 2]] } :=
  onData_greeting_unit isIP (Socks5Connection.new creds) _ nm methods rest rfl
    (by simp [Socks5Connection.new]) hlen hmem

/-! ## Events during and after the handshake -/

theorem onSocketData_handshake (isIP : JsString → Nat) (c c' : Socks5Connection)
    (chunk : List Byte) (hp : c.piped = []) (h : onData isIP c chunk = c')
    (hs : c'.stage ≠ Stage.stream) :
    onSocketData isIP c chunk = c' := by
  unfold onSocketData
  simp [hp, h, hs]

theorem step_socketData_handshake (isIP : JsString → Nat) (c c' : Socks5Connection)
    (chunk : List Byte) (hc : c.closed = false) (hp : c.piped = [])
    (h : onData isIP c chunk = c') (hs : c'.stage ≠ Stage.stream) :
    step isIP c (Event.socketData chunk) = c' := by
  simp only [step, hc]
  exact onSocketData_handshake isIP c c' chunk hp h hs

/-- The state after the greeting and the authentication, one event each. -/
theorem run_greeting_auth (isIP : JsString → Nat) (creds : Credentials)
    (nm : Byte) (methods : List Byte) (ulen plen : Byte) (uname passwd : List Byte)
    (hlen : methods.length = nm.val) (hmem : (2 : Byte) ∈ methods)
    (hu : uname.length = ulen.val) (hp : passwd.length = plen.val)
    (hname : utf8Decode uname = creds.username) (hpass : utf8Decode passwd = creds.password) :
    run isIP (Socks5Connection.new creds)
        [Event.socketData (5 :: nm :: methods),
          Event.socketData (1 :: ulen :: (uname ++ plen :: passwd))] =
      Socks5Connection.mk creds Stage.request [] [] [] 0 0 false
        [Effect.write [5, 2], Effect.write [1, 0]] := by
  have h1 := onData_greeting_unit isIP (Socks5Connection.new creds) (5 :: nm :: methods)
    nm methods [] rfl (by simp [Socks5Connection.new]) hlen hmem
  have s1 := step_socketData_handshake isIP (Socks5Connection.new creds) _ _ rfl rfl h1
    (by simp)
  have hrun : run isIP (Socks5Connection.new creds)
      [Event.socketData (5 :: nm :: methods),
        Event.socketData (1 :: ulen :: (uname ++ plen :: passwd))] =
      step isIP (step isIP (Socks5Connection.new creds) (Event.socketData (5 :: nm :: methods)))
        (Event.socketData (1 :: ulen :: (uname ++ plen :: passwd))) := rfl
  rw [hrun, s1]
  exact step_socketData_handshake isIP _ _ _ rfl rfl
    (onData_auth_unit isIP _ (1 :: ulen :: (uname ++ plen :: passwd)) ulen plen uname passwd
      [] rfl (by simp) hu hp hname hpass) (by simp)

theorem run_append (isIP : JsString → Nat) (c : Socks5Connection) (xs ys : List Event) :
    run isIP c (xs ++ ys) = run isIP (run isIP c xs) ys := by
  simp [run, List.foldl_append]

theorem writeReply_fields (isIP : JsString → Nat) (c : Socks5Connection) (rep : Nat)
    (host : JsString) (port : Nat) :
    (writeReply isIP c rep host port).creds = c.creds ∧
    (writeReply isIP c rep host port).stage = c.stage ∧
    (writeReply isIP c rep host port).buffer = c.buffer ∧
    (writeReply isIP c rep host port).remotes = c.remotes ∧
    (writeReply isIP c rep host port).piped = c.piped ∧
    (writeReply isIP c rep host port).bytesUp = c.bytesUp ∧
    (writeReply isIP c rep host port).bytesDown = c.bytesDown ∧
    (writeReply isIP c rep host port).closed = c.closed := by
  unfold writeReply
  split <;> simp [emit]

theorem forwarded_writeReply (isIP : JsString → Nat) (c : Socks5Connection) (rep : Nat)
    (host : JsString) (port : Nat) (i : Nat) :
    forwarded i (writeReply isIP c rep host port).trace = forwarded i c.trace := by
  unfold writeReply
  split <;> simp [emit, forwarded_append, forwarded]

/-! ## Numerals -/

theorem digitValue_digitChar (d : Nat) (h : d < 36) : digitValue (digitChar d) = some d := by
  unfold digitChar digitValue
  by_cases h10 : d < 10
  · simp [h10]
    omega
  · simp only [h10, if_false]
    rw [if_neg (by omega), if_pos (by omega)]
    congr 1
    omega

theorem isDigit_digitChar (radix d : Nat) (hr : radix ≤ 36) (h : d < radix) :
    isDigit radix (digitChar d) = true := by
  simp [isDigit, digitValue_digitChar d (by omega), h]

theorem toDigits_acc (radix : Nat) :
    ∀ (fuel n : Nat) (acc : List Nat),
      toDigits radix fuel n acc = toDigits radix fuel n [] ++ acc := by
  intro fuel
  induction fuel with
  | zero => intro n acc; simp [toDigits]
  | succ fuel ih =>
    intro n acc
    simp only [toDigits]
    split
    · simp
    · rw [ih (n / radix) (digitChar (n % radix) :: acc), ih (n / radix) [digitChar (n % radix)]]
      simp

theorem digitsValue_append_one (radix : Nat) (ds : List Nat) (c : Nat) :
    digitsValue radix (ds ++ [c]) = radix * digitsValue radix ds + (digitValue c).getD 0 := by
  simp [digitsValue, List.foldl_append]

theorem digitsValue_toDigits (radix : Nat) (h2 : 2 ≤ radix) (h36 : radix ≤ 36) :
    ∀ (fuel n : Nat), n < fuel → digitsValue radix (toDigits radix fuel n []) = n := by
  intro fuel
  induction fuel with
  | zero => intro n h; omega
  | succ fuel ih =>
    intro n hn
    have hmod : n % radix < radix := Nat.mod_lt _ (by omega)
    simp only [toDigits]
    split
    · rename_i h0
      have hlt : n < radix := by
        rcases Nat.lt_or_ge n radix with h | h
        · exact h
        · have := Nat.div_pos h (by omega : 0 < radix)
          omega
      simp [digitsValue, Nat.mod_eq_of_lt hlt, digitValue_digitChar n (by omega)]
    · rename_i h0
      have hpos : 0 < n := by
        rcases Nat.eq_zero_or_pos n with h | h
        · simp [h] at h0
        · exact h
      have hdiv : n / radix < n := Nat.div_lt_self hpos (by omega)
      rw [toDigits_acc, digitsValue_append_one, ih (n / radix) (by omega),
        digitValue_digitChar _ (by omega : n % radix < 36)]
      simp [Nat.div_add_mod]

theorem isDigit_toDigits (radix : Nat) (h2 : 2 ≤ radix) (h36 : radix ≤ 36) :
    ∀ (fuel n : Nat), ∀ c ∈ toDigits radix fuel n [], isDigit radix c = true := by
  intro fuel
  induction fuel with
  | zero => intro n c hc; simp [toDigits] at hc
  | succ fuel ih =>
    intro n c hc
    have hmod : n % radix < radix := Nat.mod_lt _ (by omega)
    simp only [toDigits] at hc
    split at hc
    · simp at hc
      rw [hc]
      exact isDigit_digitChar radix _ h36 hmod
    · rw [toDigits_acc] at hc
      rcases List.mem_append.1 hc with h | h
      · exact ih _ c h
      · simp at h
        rw [h]
        exact isDigit_digitChar radix _ h36 hmod

theorem numToString_ne_nil (radix n : Nat) : numToString radix n ≠ [] := by
  unfold numToString
  simp only [toDigits]
  split
  · simp
  · rw [toDigits_acc]
    simp

theorem digitsValue_numToString (radix n : Nat) (h2 : 2 ≤ radix) (h36 : radix ≤ 36) :
    digitsValue radix (numToString radix n) = n :=
  digitsValue_toDigits radix h2 h36 (n + 1) n (by omega)

theorem isDigit_numToString (radix n : Nat) (h2 : 2 ≤ radix) (h36 : radix ≤ 36) :
    ∀ c ∈ numToString radix n, isDigit radix c = true :=
  isDigit_toDigits radix h2 h36 (n + 1) n

theorem isDigit_range (radix c : Nat) (h : isDigit radix c = true) :
    (48 ≤ c ∧ c ≤ 57 ∧ c - 48 < radix) ∨ (97 ≤ c ∧ c ≤ 122 ∧ c - 87 < radix) ∨
      (65 ≤ c ∧ c ≤ 90 ∧ c - 55 < radix) := by
  unfold isDigit digitValue at h
  split_ifs at h with h1 h2 h3
  · simp at h; omega
  · simp at h; omega
  · simp at h; omega

theorem isWhiteSpace_of_isDigit (radix c : Nat) (h : isDigit radix c = true) :
    isWhiteSpace c = false := by
  have hr := isDigit_range radix c h
  simp only [isWhiteSpace, Bool.or_eq_false_iff, Bool.and_eq_false_iff, decide_eq_false_iff_not]
  omega

theorem takeWhile_all {α : Type} (p : α → Bool) (l : List α) (h : ∀ x ∈ l, p x = true) :
    l.takeWhile p = l := by
  induction l with
  | nil => rfl
  | cons x xs ih =>
    simp [List.takeWhile, h x (by simp), ih (fun y hy => h y (by simp [hy]))]

/-- On a non-empty string of digits `parseInt` returns its value. -/
theorem parseInt_digits (radix : Nat) (hr : radix = 10 ∨ radix = 16) (ds : List Nat)
    (hne : ds ≠ []) (hd : ∀ c ∈ ds, isDigit radix c = true) :
    parseInt ds radix = some (digitsValue radix ds : Int) := by
  cases ds with
  | nil => exact absurd rfl hne
  | cons c cs =>
    have hc := hd c (by simp)
    have hws := isWhiteSpace_of_isDigit radix c hc
    have hrange := isDigit_range radix c hc
    have h45 : c ≠ 45 := by omega
    have h43 : c ≠ 43 := by omega
    have htw : List.takeWhile (isDigit radix) (c :: cs) = c :: cs := takeWhile_all _ _ hd
    have hsign : dropSign (c :: cs) = c :: cs := by
      unfold dropSign
      split <;> simp_all
    have hminus : hasMinus (c :: cs) = false := by
      unfold hasMinus
      split <;> simp_all
    have hmark : dropHexMark (c :: cs) = c :: cs := by
      unfold dropHexMark
      split
      · rename_i t ht
        have := isDigit_range radix 120 (hd 120 (by simp [ht]))
        omega
      · rename_i t ht
        have := isDigit_range radix 88 (hd 88 (by simp [ht]))
        omega
      · rfl
    unfold parseInt
    simp only [List.dropWhile, hws, hsign, hminus, hmark, ite_self, htw]
    simp

theorem digitsValue_lt (radix : Nat) (ds : List Nat)
    (hd : ∀ c ∈ ds, isDigit radix c = true) : digitsValue radix ds < radix ^ ds.length := by
  induction ds using List.reverseRecOn with
  | nil => simp [digitsValue]
  | append_singleton ds c ih =>
    have hV := ih (fun x hx => hd x (by simp [hx]))
    have hc := hd c (by simp)
    have hdv : (digitValue c).getD 0 < radix := by
      unfold isDigit at hc
      split at hc
      · rename_i d hdc
        simp [hdc]
        simpa using hc
      · simp at hc
    rw [digitsValue_append_one, List.length_append, List.length_singleton, Nat.pow_succ]
    have h1 : radix * (digitsValue radix ds + 1) ≤ radix * radix ^ ds.length :=
      Nat.mul_le_mul_left _ hV
    rw [Nat.mul_comm (radix ^ ds.length) radix]
    calc radix * digitsValue radix ds + (digitValue c).getD 0
        < radix * digitsValue radix ds + radix := by omega
      _ = radix * (digitsValue radix ds + 1) := by rw [Nat.mul_add, Nat.mul_one]
      _ ≤ radix * radix ^ ds.length := h1

/-! ## Splitting -/

theorem split_no_sep (sep : Nat) (g : JsString) (h : sep ∉ g) : split sep g = [g] := by
  induction g with
  | nil => rfl
  | cons c cs ih =>
    have hc : c ≠ sep := fun e => h (by simp [e])
    simp [split, hc, ih (fun hm => h (by simp [hm]))]

theorem split_append_sep (sep : Nat) (g rest : JsString) (h : sep ∉ g) :
    split sep (g ++ sep :: rest) = g :: split sep rest := by
  induction g with
  | nil => simp [split]
  | cons c cs ih =>
    have hc : c ≠ sep := fun e => h (by simp [e])
    simp [split, hc, ih (fun hm => h (by simp [hm]))]

theorem sep_not_mem_digits (radix sep : Nat) (hsep : sep = 46 ∨ sep = 58) (ds : List Nat)
    (hd : ∀ c ∈ ds, isDigit radix c = true) : sep ∉ ds := by
  intro hm
  have := isDigit_range radix sep (hd sep hm)
  omega

/-! ## Reply encoding -/

theorem toUint8_natCast (n : Nat) : toUint8 (n : Int) = byteOf n := by
  apply Fin.ext
  simp only [toUint8, byteOf]
  omega

theorem byteOf_val (b : Byte) : byteOf b.val = b := by
  apply Fin.ext
  simp only [byteOf]
  omega

theorem numToByte_parseInt_numToString (b : Byte) :
    numToByte (parseInt (numToString 10 b.val) 10) = b := by
  rw [parseInt_digits 10 (Or.inl rfl) _ (numToString_ne_nil 10 b.val)
    (isDigit_numToString 10 b.val (by decide) (by decide)),
    digitsValue_numToString 10 b.val (by decide) (by decide)]
  simp only [numToByte]
  rw [toUint8_natCast, byteOf_val]

theorem ipv4Bytes_dottedQuad (a b c d : Byte) : ipv4Bytes (dottedQuad a b c d) = [a, b, c, d] := by
  have hs : ∀ x : Byte, (46 : Nat) ∉ numToString 10 x.val := fun x =>
    sep_not_mem_digits 10 46 (Or.inl rfl) _
      (isDigit_numToString 10 x.val (by decide) (by decide))
  unfold ipv4Bytes dottedQuad
  simp only [join]
  rw [split_append_sep 46 _ _ (hs a), split_append_sep 46 _ _ (hs b),
    split_append_sep 46 _ _ (hs c), split_no_sep 46 _ (hs d)]
  simp [numToByte_parseInt_numToString]

theorem hextetBytes_length (h : JsString) : (hextetBytes h).length = 2 := by
  simp [hextetBytes]

theorem flatMap_hextetBytes_length (gs : List JsString) :
    (gs.flatMap hextetBytes).length = 2 * gs.length := by
  induction gs with
  | nil => rfl
  | cons g gs ih =>
    simp only [List.flatMap_cons, List.length_append, hextetBytes_length, ih, List.length_cons]
    omega

theorem hextetBytes_of_isHextet (g : JsString) (hg : isHextet g = true) :
    hextetBytes g = be16 (hextetValue g) := by
  simp only [isHextet, Bool.and_eq_true, decide_eq_true_eq, List.all_eq_true] at hg
  obtain ⟨hlen, hd⟩ := hg
  have hlt : digitsValue 16 g < 65536 := by
    have h1 := digitsValue_lt 16 g hd
    have h2 : 16 ^ g.length ≤ 16 ^ 4 := Nat.pow_le_pow_right (by decide) hlen
    have h3 : (16 : Nat) ^ 4 = 65536 := by norm_num
    omega
  have hp : parseInt (if g = [] then [48] else g) 16 = some (digitsValue 16 g : Int) := by
    by_cases hnil : g = []
    · subst hnil
      decide
    · rw [if_neg hnil]
      exact parseInt_digits 16 (Or.inr rfl) g hnil hd
  unfold hextetBytes
  simp only [hp, toInt32, be16, hextetValue]
  have e1 : ((digitsValue 16 g : Int) + 2147483648) % 4294967296 - 2147483648 =
      (digitsValue 16 g : Int) := by omega
  rw [e1]
  have e2 : (digitsValue 16 g : Int) / 256 = ((digitsValue 16 g / 256 : Nat) : Int) := by
    omega
  have e3 : (digitsValue 16 g : Int) % 256 = ((digitsValue 16 g % 256 : Nat) : Int) := by
    omega
  rw [e2, e3, toUint8_natCast, toUint8_natCast]

theorem flatMap_hextetBytes (gs : List JsString) (h : ∀ g ∈ gs, isHextet g = true) :
    gs.flatMap hextetBytes = gs.flatMap (fun g => be16 (hextetValue g)) := by
  induction gs with
  | nil => rfl
  | cons g gs ih =>
    simp only [List.flatMap_cons]
    rw [hextetBytes_of_isHextet g (h g (by simp)), ih (fun x hx => h x (by simp [hx]))]

theorem port_bytes (port : Nat) :
    [toUint8 ((port : Int) / 256), toUint8 ((port : Int) % 256)] = be16 port := by
  have e2 : (port : Int) / 256 = ((port / 256 : Nat) : Int) := by omega
  have e3 : (port : Int) % 256 = ((port % 256 : Nat) : Int) := by omega
  rw [e2, e3, toUint8_natCast, toUint8_natCast]
  rfl

/-! ## Fields the handlers leave alone -/

theorem writeReply_trace (isIP : JsString → Nat) (c : Socks5Connection) (rep : Nat)
    (host : JsString) (port : Nat) :
    (writeReply isIP c rep host port).trace = c.trace ∨
      ∃ bytes, (writeReply isIP c rep host port).trace = c.trace ++ [Effect.write bytes] := by
  unfold writeReply
  split
  · exact Or.inr ⟨_, rfl⟩
  · exact Or.inl rfl

theorem handleGreeting_stage (c : Socks5Connection) :
    (handleGreeting c).stage = c.stage ∨ (handleGreeting c).stage = Stage.auth := by
  simp only [handleGreeting]
  split_ifs <;> simp [emit, consume, writeMethodSelection]

theorem handleGreeting_remotes (c : Socks5Connection) :
    (handleGreeting c).remotes = c.remotes := by
  simp only [handleGreeting]
  split_ifs <;> simp [emit, consume, writeMethodSelection]

theorem handleAuth_stage (c : Socks5Connection) :
    (handleAuth c).stage = c.stage ∨ (handleAuth c).stage = Stage.request := by
  simp only [handleAuth]
  split_ifs <;> simp [emit, consume, writeAuthStatus]

theorem handleAuth_remotes (c : Socks5Connection) :
    (handleAuth c).remotes = c.remotes := by
  simp only [handleAuth]
  split_ifs <;> simp [emit, consume, writeAuthStatus]

theorem handleRequest_stage (isIP : JsString → Nat) (c : Socks5Connection) :
    (handleRequest isIP c).stage = c.stage := by
  have hw := fun c' rep => (writeReply_fields isIP c' rep defaultHost 0).2.1
  simp only [handleRequest]
  split_ifs <;> simp [emit, consume, establishRemote, hw]

theorem close_of_closed (c : Socks5Connection) (h : c.closed = true) : close c = c := by
  simp [close, h]

theorem close_of_open (c : Socks5Connection) (h : c.closed = false) :
    close c =
      { c with closed := true,
               trace := c.trace ++
                 (if c.remotes = [] then [] else [Effect.remoteDestroy (c.remotes.length - 1)]) ++
                 [Effect.socketDestroy] } := by
  simp only [close, h]
  by_cases hr : c.remotes = [] <;> simp [hr, emit]

theorem close_stage (c : Socks5Connection) : (close c).stage = c.stage := by
  cases h : c.closed
  · rw [close_of_open c h]
  · rw [close_of_closed c h]

theorem close_remotes (c : Socks5Connection) : (close c).remotes = c.remotes := by
  cases h : c.closed
  · rw [close_of_open c h]
  · rw [close_of_closed c h]

theorem foldl_emit_fields (c : Socks5Connection) (chunk : List Byte) (l : List Nat) :
    (l.foldl (fun s i => emit s (Effect.remoteWrite i chunk)) c).stage = c.stage ∧
    (l.foldl (fun s i => emit s (Effect.remoteWrite i chunk)) c).remotes = c.remotes ∧
    (l.foldl (fun s i => emit s (Effect.remoteWrite i chunk)) c).bytesUp = c.bytesUp ∧
    (l.foldl (fun s i => emit s (Effect.remoteWrite i chunk)) c).bytesDown = c.bytesDown ∧
    (l.foldl (fun s i => emit s (Effect.remoteWrite i chunk)) c).buffer = c.buffer := by
  induction l generalizing c with
  | nil => simp
  | cons i l ih =>
    simp only [List.foldl_cons]
    have := ih (emit c (Effect.remoteWrite i chunk))
    simpa [emit] using this

/-! ## Stage order -/

theorem onData_stream (isIP : JsString → Nat) (c : Socks5Connection) (data : List Byte)
    (h : c.stage = Stage.stream) :
    onData isIP c data = { c with buffer := c.buffer ++ data } := by
  obtain ⟨cr, st, buf, rs, pp, up, dn, cl, tr⟩ := c
  simp only at h
  subst h
  rfl

theorem onData_stage_step (isIP : JsString → Nat) (c : Socks5Connection) (chunk : List Byte)
    (hinv : c.remotes ≠ [] → 2 ≤ c.stage.rank) :
    ((onData isIP c chunk).remotes ≠ [] → 2 ≤ (onData isIP c chunk).stage.rank) ∧
      c.stage.rank ≤ (onData isIP c chunk).stage.rank ∧
      (onData isIP c chunk).stage.rank ≤ c.stage.rank + 1 := by
  cases hst : c.stage with
  | greeting =>
    rw [onData_greeting isIP c _ hst]
    have hr : c.remotes = [] := by
      by_contra hne
      have := hinv hne
      simp [hst, Stage.rank] at this
    rw [handleGreeting_remotes]
    rcases handleGreeting_stage { c with buffer := c.buffer ++ chunk } with h | h
    · rw [h]; simp [hst, hr, Stage.rank]
    · rw [h]; simp [hr, Stage.rank]
  | auth =>
    rw [onData_auth isIP c _ hst]
    have hr : c.remotes = [] := by
      by_contra hne
      have := hinv hne
      simp [hst, Stage.rank] at this
    rw [handleAuth_remotes]
    rcases handleAuth_stage { c with buffer := c.buffer ++ chunk } with h | h
    · rw [h]; simp [hst, hr, Stage.rank]
    · rw [h]; simp [hr, Stage.rank]
  | request =>
    rw [onData_request isIP c _ hst, handleRequest_stage]
    simp [hst, Stage.rank]
  | stream =>
    rw [onData_stream isIP c _ hst]
    simp [hst, Stage.rank]

theorem step_stage_step (isIP : JsString → Nat) (c : Socks5Connection) (e : Event)
    (hinv : c.remotes ≠ [] → 2 ≤ c.stage.rank) :
    ((step isIP c e).remotes ≠ [] → 2 ≤ (step isIP c e).stage.rank) ∧
      c.stage.rank ≤ (step isIP c e).stage.rank ∧
      (step isIP c e).stage.rank ≤ c.stage.rank + 1 := by
  have hsame : ∀ c' : Socks5Connection, c'.stage = c.stage → c'.remotes = c.remotes →
      (c'.remotes ≠ [] → 2 ≤ c'.stage.rank) ∧ c.stage.rank ≤ c'.stage.rank ∧
        c'.stage.rank ≤ c.stage.rank + 1 := by
    intro c' hs hr
    rw [hs, hr]
    exact ⟨hinv, Nat.le_refl _, Nat.le_succ _⟩
  cases e with
  | socketData chunk =>
    simp only [step]
    split
    · exact hsame c rfl rfl
    · have h := onData_stage_step isIP c chunk hinv
      unfold onSocketData
      obtain ⟨f1, f2, -, -, -⟩ := foldl_emit_fields
        (if (onData isIP c chunk).stage = Stage.stream then
          { onData isIP c chunk with
            bytesUp := (onData isIP c chunk).bytesUp + c.remotes.length * chunk.length }
        else onData isIP c chunk) chunk c.piped
      simp only [f1, f2]
      split <;> exact h
  | socketError => exact hsame _ (close_stage c) (close_remotes c)
  | socketClose => exact hsame _ (close_stage c) (close_remotes c)
  | remoteConnect i =>
    simp only [step]
    split
    · exact hsame c rfl rfl
    · unfold onRemoteConnect
      split
      · exact hsame c rfl rfl
      · rename_i host port hget
        have hne : c.remotes ≠ [] := by
          intro h0
          simp [h0] at hget
        have h2 := hinv hne
        have hw := (writeReply_fields isIP c REP_SUCCEEDED host port).2.2.2.1
        simp only [emit, Stage.rank]
        refine ⟨fun _ => by omega, ?_, ?_⟩
        · cases hst : c.stage <;> simp [Stage.rank]
        · cases hst : c.stage <;> simp [hst, Stage.rank] at h2 ⊢
  | remoteData i chunk =>
    simp only [step]
    split
    · exact hsame _ rfl rfl
    · exact hsame c rfl rfl
  | remoteError i code =>
    simp only [step]
    split
    · unfold onRemoteError
      split
      · refine hsame _ ?_ ?_
        · rw [close_stage]; exact (writeReply_fields isIP c _ defaultHost 0).2.1
        · rw [close_remotes]; exact (writeReply_fields isIP c _ defaultHost 0).2.2.2.1
      · exact hsame _ (close_stage c) (close_remotes c)
    · exact hsame c rfl rfl
  | remoteClose i =>
    simp only [step]
    split
    · exact hsame _ (close_stage c) (close_remotes c)
    · exact hsame c rfl rfl

theorem run_snoc (isIP : JsString → Nat) (c : Socks5Connection) (events : List Event)
    (e : Event) : run isIP c (events ++ [e]) = step isIP (run isIP c events) e := by
  simp [run, List.foldl_append]

theorem run_stage_inv (isIP : JsString → Nat) (creds : Credentials) (events : List Event) :
    (run isIP (Socks5Connection.new creds) events).remotes ≠ [] →
      2 ≤ (run isIP (Socks5Connection.new creds) events).stage.rank := by
  induction events using List.reverseRecOn with
  | nil => intro h; exact absurd rfl h
  | append_singleton events e ih =>
    rw [run_snoc]
    exact (step_stage_step isIP _ e ih).1

/-! ## What a handler removes from the buffer -/

theorem byte_eq_of_val (x : Byte) (n : Nat) (hn : n < 256) (h : x.val = n) : x = ⟨n, hn⟩ :=
  Fin.ext h

theorem greeting_decompose (b : List Byte) (h2 : 2 ≤ b.length) (hv : byteAt b 0 = 5)
    (h3 : 2 + byteAt b 1 ≤ b.length) :
    ∃ nm methods rest, b = 5 :: nm :: (methods ++ rest) ∧ methods.length = nm.val := by
  match b, h2 with
  | x :: y :: t, _ =>
    have hx : x = 5 := Fin.ext hv
    have hy : byteAt (x :: y :: t) 1 = y.val := rfl
    rw [hy] at h3
    simp only [List.length_cons] at h3
    refine ⟨y, t.take y.val, t.drop y.val, ?_, ?_⟩
    · rw [hx, List.take_append_drop]
    · rw [List.length_take]
      omega

theorem handleGreeting_buffer (c : Socks5Connection) :
    (handleGreeting c).buffer = c.buffer ∨
      ∃ u rest, c.buffer = u ++ rest ∧ IsUnit Stage.greeting u ∧
        (handleGreeting c).buffer = rest := by
  by_cases h2 : 2 ≤ c.buffer.length
  · by_cases hv : byteAt c.buffer 0 = 5
    · by_cases h3 : 2 + byteAt c.buffer 1 ≤ c.buffer.length
      · obtain ⟨nm, methods, rest, hb, hl⟩ := greeting_decompose c.buffer h2 hv h3
        refine Or.inr ⟨5 :: nm :: methods, rest, by simpa using hb, IsUnit.greeting nm methods hl, ?_⟩
        rw [handleGreeting_unit c nm methods rest hb hl]
        split <;> rfl
      · left
        simp [handleGreeting, needBytes, h2, hv, h3]
    · left
      simp [handleGreeting, needBytes, h2, hv, emit]
  · left
    simp [handleGreeting, needBytes, h2]

theorem auth_decompose (b : List Byte) (h2 : 2 ≤ b.length) (hv : byteAt b 0 = 1)
    (h3 : 2 + byteAt b 1 + 1 ≤ b.length)
    (h4 : 2 + byteAt b 1 + 1 + byteAt b (2 + byteAt b 1) ≤ b.length) :
    ∃ ulen plen uname passwd rest, b = 1 :: ulen :: (uname ++ plen :: (passwd ++ rest)) ∧
      uname.length = ulen.val ∧ passwd.length = plen.val := by
  match b, h2 with
  | x :: y :: t, _ =>
    have hx : x = 1 := Fin.ext hv
    have hy : byteAt (x :: y :: t) 1 = y.val := rfl
    rw [hy] at h3 h4
    simp only [List.length_cons] at h3
    have hul : (t.take y.val).length = y.val := by
      rw [List.length_take]; omega
    have hdl : (t.drop y.val).length = t.length - y.val := List.length_drop _ _
    match hd : t.drop y.val with
    | [] => rw [hd] at hdl; simp at hdl; omega
    | pl :: t2 =>
      have ht : t = t.take y.val ++ pl :: t2 := by rw [← hd, List.take_append_drop]
      have hpl : byteAt (x :: y :: t) (2 + y.val) = pl.val := by
        rw [hx, ht]
        exact byteAt_auth_plen y pl (t.take y.val) t2 hul
      rw [hpl] at h4
      rw [hd] at hdl
      simp only [List.length_cons] at h4 hdl
      refine ⟨y, pl, t.take y.val, t2.take pl.val, t2.drop pl.val, ?_, hul, ?_⟩
      · rw [hx, List.take_append_drop]
        rw [← ht]
      · rw [List.length_take]
        omega

theorem handleAuth_buffer (c : Socks5Connection) :
    (handleAuth c).buffer = c.buffer ∨
      ∃ u rest, c.buffer = u ++ rest ∧ IsUnit Stage.auth u ∧ (handleAuth c).buffer = rest := by
  by_cases h2 : 2 ≤ c.buffer.length
  · by_cases hv : byteAt c.buffer 0 = 1
    · by_cases h3 : 2 + byteAt c.buffer 1 + 1 ≤ c.buffer.length
      · by_cases h4 : 2 + byteAt c.buffer 1 + 1 + byteAt c.buffer (2 + byteAt c.buffer 1) ≤
            c.buffer.length
        · obtain ⟨ulen, plen, uname, passwd, rest, hb, hu, hp⟩ :=
            auth_decompose c.buffer h2 hv h3 h4
          refine Or.inr ⟨1 :: ulen :: (uname ++ plen :: passwd), rest, by simpa using hb,
            IsUnit.auth ulen uname plen passwd hu hp, ?_⟩
          rw [handleAuth_unit c ulen plen uname passwd rest hb hu hp]
          split <;> rfl
        · left
          simp [handleAuth, needBytes, h2, hv, h3, h4]
      · left
        simp [handleAuth, needBytes, h2, hv, h3]
    · left
      simp [handleAuth, needBytes, h2, hv, emit]
  · left
    simp [handleAuth, needBytes, h2]

theorem take_then_two (l : List Byte) (n : Nat) (h : n + 2 ≤ l.length) :
    ∃ p0 p1 rest, l = l.take n ++ p0 :: p1 :: rest ∧ (l.take n).length = n := by
  have hdl : (l.drop n).length = l.length - n := List.length_drop _ _
  match hd : l.drop n with
  | [] => rw [hd] at hdl; simp at hdl; omega
  | [p0] => rw [hd] at hdl; simp at hdl; omega
  | p0 :: p1 :: rest =>
    refine ⟨p0, p1, rest, ?_, ?_⟩
    · rw [← hd, List.take_append_drop]
    · rw [List.length_take]; omega

theorem handleRequest_buffer (isIP : JsString → Nat) (c : Socks5Connection) :
    (handleRequest isIP c).buffer = c.buffer ∨
      (∃ u rest, c.buffer = u ++ rest ∧ IsUnit Stage.request u ∧
        (handleRequest isIP c).buffer = rest) ∨
      (4 ≤ c.buffer.length ∧ byteAt c.buffer 0 = 5 ∧ byteAt c.buffer 1 ≠ 1 ∧
        (handleRequest isIP c).buffer = []) := by
  have hw := fun c' rep => (writeReply_fields isIP c' rep defaultHost 0).2.2.1
  have hunit : ∀ u rest, c.buffer = u ++ rest → IsUnit Stage.request u →
      (∃ u rest, c.buffer = u ++ rest ∧ IsUnit Stage.request u ∧
        (handleRequest isIP c).buffer = rest) := by
    intro u rest hb hu
    obtain ⟨host, port, -, h⟩ := handleRequest_unit isIP c u rest hu hb
    exact ⟨u, rest, hb, hu, by rw [h]; rfl⟩
  by_cases h4 : 4 ≤ c.buffer.length
  · by_cases hv : byteAt c.buffer 0 = 5
    · by_cases hc : byteAt c.buffer 1 = 1
      · match hb : c.buffer, h4 with
        | x0 :: x1 :: x2 :: x3 :: t, _ =>
          rw [hb] at hv hc
          have hx0 : x0 = 5 := Fin.ext hv
          have hx1 : x1 = 1 := Fin.ext hc
          have e3 : byteAt c.buffer 3 = x3.val := by rw [hb]; rfl
          have e0 : byteAt c.buffer 0 = 5 := by rw [hb, hx0]; rfl
          have e1 : byteAt c.buffer 1 = 1 := by rw [hb, hx1]; rfl
          have hlen : c.buffer.length = t.length + 4 := by rw [hb]; simp
          by_cases ha1 : x3.val = 1
          · have hx3 : x3 = 1 := Fin.ext ha1
            by_cases h10 : 6 ≤ t.length
            · obtain ⟨p0, p1, rest, ht, hl⟩ := take_then_two t 4 (by omega)
              match hk : t.take 4, hl with
              | [a0, a1, a2, a3], _ =>
                rw [hk] at ht
                right; left
                rw [← hb]
                exact hunit [5, 1, x2, 1, a0, a1, a2, a3, p0, p1] rest
                  (by rw [hb, hx0, hx1, hx3, ht]; rfl) (IsUnit.ipv4 x2 a0 a1 a2 a3 p0 p1)
            · left
              rw [← hb]
              simp only [handleRequest, needBytes, e0, e1, e3, ha1, hlen]
              simp
              rw [if_pos (by omega)]
          · by_cases ha3 : x3.val = 3
            · have hx3 : x3 = 3 := Fin.ext ha3
              match ht0 : t with
              | [] =>
                left
                rw [← hb]
                simp only [List.length_nil] at hlen
                simp only [handleRequest, needBytes, e0, e1, e3, ha3, hlen]
                simp
              | dl :: t' =>
                have e4 : byteAt c.buffer 4 = dl.val := by rw [hb]; rfl
                simp only [List.length_cons] at hlen
                by_cases h7 : dl.val + 2 ≤ t'.length
                · obtain ⟨p0, p1, rest, ht, hl⟩ := take_then_two t' dl.val h7
                  right; left
                  rw [← hb]
                  exact hunit (5 :: 1 :: x2 :: 3 :: dl :: (t'.take dl.val ++ [p0, p1])) rest
                    (by rw [hb, hx0, hx1, hx3]; simp; exact ht)
                    (IsUnit.domain x2 dl (t'.take dl.val) p0 p1 hl)
                · left
                  rw [← hb]
                  simp only [handleRequest, needBytes, e0, e1, e3, e4, ha3, hlen]
                  simp
                  split_ifs <;> first | rfl | (exfalso; omega)
            · by_cases ha4 : x3.val = 4
              · have hx3 : x3 = 4 := Fin.ext ha4
                by_cases h22 : 18 ≤ t.length
                · obtain ⟨p0, p1, rest, ht, hl⟩ := take_then_two t 16 (by omega)
                  right; left
                  rw [← hb]
                  exact hunit (5 :: 1 :: x2 :: 4 :: (t.take 16 ++ [p0, p1])) rest
                    (by rw [hb, hx0, hx1, hx3]; simp; exact ht)
                    (IsUnit.ipv6 x2 (t.take 16) p0 p1 hl)
                · left
                  rw [← hb]
                  simp only [handleRequest, needBytes, e0, e1, e3, ha4, hlen]
                  simp
                  rw [if_pos (by omega)]
              · left
                rw [← hb]
                simp only [handleRequest, needBytes, e0, e1, e3, hlen]
                simp [ha1, ha3, ha4, emit, hw]
      · right; right
        refine ⟨h4, hv, hc, ?_⟩
        simp [handleRequest, needBytes, h4, hv, hc, emit, consume, hw]
    · left
      simp [handleRequest, needBytes, h4, hv, emit]
  · left
    simp [handleRequest, needBytes, h4]

theorem onData_buffer (isIP : JsString → Nat) (c : Socks5Connection) (chunk : List Byte) :
    (onData isIP c chunk).buffer = c.buffer ++ chunk ∨
      (∃ u rest, c.buffer ++ chunk = u ++ rest ∧ IsUnit c.stage u ∧
        (onData isIP c chunk).buffer = rest) ∨
      (c.stage = Stage.request ∧ 4 ≤ (c.buffer ++ chunk).length ∧
        byteAt (c.buffer ++ chunk) 0 = 5 ∧ byteAt (c.buffer ++ chunk) 1 ≠ 1 ∧
        (onData isIP c chunk).buffer = []) := by
  cases hst : c.stage with
  | greeting =>
    rw [onData_greeting isIP c _ hst]
    rcases handleGreeting_buffer { c with buffer := c.buffer ++ chunk } with h | h
    · exact Or.inl h
    · exact Or.inr (Or.inl h)
  | auth =>
    rw [onData_auth isIP c _ hst]
    rcases handleAuth_buffer { c with buffer := c.buffer ++ chunk } with h | h
    · exact Or.inl h
    · exact Or.inr (Or.inl h)
  | request =>
    rw [onData_request isIP c _ hst]
    rcases handleRequest_buffer isIP { c with buffer := c.buffer ++ chunk } with h | h | h
    · exact Or.inl h
    · exact Or.inr (Or.inl h)
    · exact Or.inr (Or.inr ⟨rfl, h⟩)
  | stream =>
    rw [onData_stream isIP c _ hst]
    exact Or.inl rfl

/-! ## Failure replies -/

theorem buildReply_default (isIP : JsString → Nat) (h4 : isIP defaultHost = 4) (rep : Byte) :
    buildReply isIP rep.val defaultHost 0 = some (failureReply rep) := by
  have hrep : toUint8 (rep.val : Int) = rep := by rw [toUint8_natCast, byteOf_val]
  have hb : ipv4Bytes defaultHost = [0, 0, 0, 0] := by decide
  unfold buildReply
  simp only [h4, if_true, hrep, hb, failureReply]
  rfl

theorem writeReply_default (isIP : JsString → Nat) (h4 : isIP defaultHost = 4)
    (c : Socks5Connection) (rep : Byte) :
    writeReply isIP c rep.val defaultHost 0 = emit c (Effect.write (failureReply rep)) := by
  unfold writeReply
  rw [buildReply_default isIP h4 rep]

theorem handleRequest_bad_command (isIP : JsString → Nat) (h4 : isIP defaultHost = 4)
    (c : Socks5Connection) (hlen : 4 ≤ c.buffer.length) (hver : byteAt c.buffer 0 = 5)
    (hcmd : byteAt c.buffer 1 ≠ 1) :
    handleRequest isIP c =
      { c with buffer := [],
               trace := c.trace ++ [Effect.write (failureReply 7), Effect.socketEnd] } := by
  have hw := writeReply_default isIP h4 (consume c c.buffer.length) 7
  have h7 : ((7 : Byte) : Nat) = REP_CMD_NOT_SUPPORTED := rfl
  rw [h7] at hw
  have hv : byteAt c.buffer 0 = SOCKS_VERSION := hver
  have hc : ¬ byteAt c.buffer 1 = CMD_CONNECT := hcmd
  simp only [handleRequest, needBytes, hw]
  simp [hlen, emit, consume, hv, hc]

theorem handleRequest_bad_atyp (isIP : JsString → Nat) (h4 : isIP defaultHost = 4)
    (c : Socks5Connection) (hlen : 4 ≤ c.buffer.length) (hver : byteAt c.buffer 0 = 5)
    (hcmd : byteAt c.buffer 1 = 1) (h1 : byteAt c.buffer 3 ≠ 1) (h3 : byteAt c.buffer 3 ≠ 3)
    (h6 : byteAt c.buffer 3 ≠ 4) :
    handleRequest isIP c =
      { c with trace := c.trace ++ [Effect.write (failureReply 8), Effect.socketEnd] } := by
  have hw := writeReply_default isIP h4 c 8
  have h8 : ((8 : Byte) : Nat) = REP_ADDR_TYPE_NOT_SUPPORTED := rfl
  rw [h8] at hw
  have hv : byteAt c.buffer 0 = SOCKS_VERSION := hver
  have hc : byteAt c.buffer 1 = CMD_CONNECT := hcmd
  have g1 : ¬ byteAt c.buffer 3 = ATYP_IPV4 := h1
  have g3 : ¬ byteAt c.buffer 3 = ATYP_DOMAIN := h3
  have g6 : ¬ byteAt c.buffer 3 = ATYP_IPV6 := h6
  simp only [handleRequest, needBytes, hw]
  simp [hlen, emit, hv, hc, g1, g3, g6]

/-! ## Wrong version byte -/

theorem onData_wrong_version (isIP : JsString → Nat) (c : Socks5Connection) (chunk : List Byte)
    (h : wrongVersion c.stage (c.buffer ++ chunk) = true) :
    onData isIP c chunk =
      { c with buffer := c.buffer ++ chunk, trace := c.trace ++ [Effect.socketEnd] } := by
  cases hst : c.stage with
  | greeting =>
    rw [hst] at h
    simp only [wrongVersion, Bool.and_eq_true, decide_eq_true_eq] at h
    have hv : ¬ byteAt (c.buffer ++ chunk) 0 = SOCKS_VERSION := h.2
    rw [onData_greeting isIP c _ hst]
    have hl := h.1
    rw [List.length_append] at hl
    simp [handleGreeting, needBytes, hv, emit]
    rw [if_neg (by omega), hst]
  | auth =>
    rw [hst] at h
    simp only [wrongVersion, Bool.and_eq_true, decide_eq_true_eq] at h
    have hv : ¬ byteAt (c.buffer ++ chunk) 0 = AUTH_VERSION := h.2
    rw [onData_auth isIP c _ hst]
    have hl := h.1
    rw [List.length_append] at hl
    simp [handleAuth, needBytes, hv, emit]
    rw [if_neg (by omega), hst]
  | request =>
    rw [hst] at h
    simp only [wrongVersion, Bool.and_eq_true, decide_eq_true_eq] at h
    have hv : ¬ byteAt (c.buffer ++ chunk) 0 = SOCKS_VERSION := h.2
    rw [onData_request isIP c _ hst]
    have hl := h.1
    rw [List.length_append] at hl
    simp [handleRequest, needBytes, hv, emit]
    rw [if_neg (by omega), hst]
  | stream =>
    rw [hst] at h
    simp [wrongVersion] at h

/-! ## Outbound errors and teardown -/

theorem step_remoteError (isIP : JsString → Nat) (h4 : isIP defaultHost = 4)
    (c : Socks5Connection) (i : Nat) (code : ErrCode) (hi : i < c.remotes.length) :
    step isIP c (Event.remoteError i code) =
      if c.stage = Stage.stream then close c
      else close (emit c (Effect.write (failureReply (failureCode code)))) := by
  simp only [step, hi, if_true, onRemoteError]
  by_cases hs : c.stage = Stage.stream
  · simp [hs]
  · simp only [hs, ne_eq, not_false_eq_true, if_true, if_false]
    cases code
    · exact congrArg close (writeReply_default isIP h4 c 4)
    · exact congrArg close (writeReply_default isIP h4 c 5)
    · exact congrArg close (writeReply_default isIP h4 c 1)

theorem close_close (c : Socks5Connection) : close (close c) = close c := by
  cases h : c.closed
  · rw [close_of_open c h]
    exact close_of_closed _ rfl
  · rw [close_of_closed c h, close_of_closed c h]

/-! ## Two accepted requests -/

/-- The state after a handshake followed by two CONNECT requests, one event each. -/
theorem run_two_requests (isIP : JsString → Nat) (creds : Credentials)
    (nm : Byte) (methods : List Byte) (ulen plen : Byte) (uname passwd r₁ r₂ : List Byte)
    (hlen : methods.length = nm.val) (hmem : (2 : Byte) ∈ methods)
    (hu : uname.length = ulen.val) (hp : passwd.length = plen.val)
    (hname : utf8Decode uname = creds.username) (hpass : utf8Decode passwd = creds.password)
    (h₁ : IsUnit Stage.request r₁) (h₂ : IsUnit Stage.request r₂) :
    ∃ host₁ port₁ host₂ port₂, refTarget r₁ = some (host₁, port₁) ∧
      refTarget r₂ = some (host₂, port₂) ∧
      run isIP (Socks5Connection.new creds)
        [Event.socketData (5 :: nm :: methods),
          Event.socketData (1 :: ulen :: (uname ++ plen :: passwd)),
          Event.socketData r₁, Event.socketData r₂] =
        Socks5Connection.mk creds Stage.request [] [(host₁, port₁), (host₂, port₂)] [] 0 0 false
          [Effect.write [5, 2], Effect.write [1, 0], Effect.createConnection host₁ port₁,
            Effect.createConnection host₂ port₂] := by
  have h12 := run_greeting_auth isIP creds nm methods ulen plen uname passwd hlen hmem hu hp
    hname hpass
  obtain ⟨host₁, port₁, ht₁, e₁⟩ := onData_request_unit isIP
    (Socks5Connection.mk creds Stage.request [] [] [] 0 0 false
      [Effect.write [5, 2], Effect.write [1, 0]]) r₁ r₁ [] rfl h₁ (by simp)
  have s₃ := step_socketData_handshake isIP _ _ _ rfl rfl e₁ (by simp [establishRemote, emit])
  obtain ⟨host₂, port₂, ht₂, e₂⟩ := onData_request_unit isIP
    (establishRemote (Socks5Connection.mk creds Stage.request [] [] [] 0 0 false
      [Effect.write [5, 2], Effect.write [1, 0]]) host₁ port₁) r₂ r₂ [] rfl h₂
    (by simp [establishRemote, emit])
  have s₄ := step_socketData_handshake isIP _ _ _ rfl rfl e₂ (by simp [establishRemote, emit])
  refine ⟨host₁, port₁, host₂, port₂, ht₁, ht₂, ?_⟩
  have hsplit : run isIP (Socks5Connection.new creds)
      [Event.socketData (5 :: nm :: methods),
        Event.socketData (1 :: ulen :: (uname ++ plen :: passwd)),
        Event.socketData r₁, Event.socketData r₂] =
      step isIP (step isIP (run isIP (Socks5Connection.new creds)
        [Event.socketData (5 :: nm :: methods),
          Event.socketData (1 :: ulen :: (uname ++ plen :: passwd))])
        (Event.socketData r₁)) (Event.socketData r₂) := rfl
  rw [hsplit, h12, s₃, s₄]
  simp [establishRemote, emit]

/-! ## Round trip of an address through its string -/

theorem hextetBytes_numToString (v : Nat) (hv : v < 65536) :
    hextetBytes (numToString 16 v) = be16 v := by
  have hp : parseInt (numToString 16 v) 16 = some (v : Int) := by
    rw [parseInt_digits 16 (Or.inr rfl) _ (numToString_ne_nil 16 v)
      (isDigit_numToString 16 v (by decide) (by decide)),
      digitsValue_numToString 16 v (by decide) (by decide)]
  unfold hextetBytes
  simp only [if_neg (numToString_ne_nil 16 v), hp, toInt32, be16]
  have e1 : ((v : Int) + 2147483648) % 4294967296 - 2147483648 = (v : Int) := by omega
  rw [e1]
  have e2 : (v : Int) / 256 = ((v / 256 : Nat) : Int) := by omega
  have e3 : (v : Int) % 256 = ((v % 256 : Nat) : Int) := by omega
  rw [e2, e3, toUint8_natCast, toUint8_natCast]

theorem be16_pair (hi lo : Byte) : be16 (256 * hi.val + lo.val) = [hi, lo] := by
  have h1 := hi.isLt
  have h2 := lo.isLt
  simp only [be16, byteOf]
  congr 1
  · apply Fin.ext
    simp only
    omega
  · congr 1
    apply Fin.ext
    simp only
    omega

theorem hextetBytes_pair (hi lo : Byte) :
    hextetBytes (numToString 16 (256 * hi.val + lo.val)) = [hi, lo] := by
  have h1 := hi.isLt
  have h2 := lo.isLt
  rw [hextetBytes_numToString _ (by omega), be16_pair]

theorem ipv6Bytes_ipv6String (addr : List Byte) (ha : addr.length = 16) :
    ipv6Bytes (ipv6String addr) = addr := by
  have hs : ∀ v : Nat, (58 : Nat) ∉ numToString 16 v := fun v =>
    sep_not_mem_digits 16 58 (Or.inr rfl) _
      (isDigit_numToString 16 v (by decide) (by decide))
  match addr, ha with
  | [b0, b1, b2, b3, b4, b5, b6, b7, b8, b9, b10, b11, b12, b13, b14, b15], _ =>
    unfold ipv6Bytes ipv6String
    simp only [groups16, List.map, join]
    rw [split_append_sep 58 _ _ (hs _), split_append_sep 58 _ _ (hs _),
      split_append_sep 58 _ _ (hs _), split_append_sep 58 _ _ (hs _),
      split_append_sep 58 _ _ (hs _), split_append_sep 58 _ _ (hs _),
      split_append_sep 58 _ _ (hs _), split_no_sep 58 _ (hs _)]
    simp [hextetBytes_pair]

theorem request_port_bytes (p0 p1 : Byte) :
    [toUint8 (((256 * p0.val + p1.val : Nat) : Int) / 256),
      toUint8 (((256 * p0.val + p1.val : Nat) : Int) % 256)] = [p0, p1] := by
  rw [port_bytes, be16_pair]

theorem buildReply_dottedQuad (isIP : JsString → Nat) (a0 a1 a2 a3 p0 p1 : Byte)
    (h4 : isIP (dottedQuad a0 a1 a2 a3) = 4) :
    buildReply isIP REP_SUCCEEDED (dottedQuad a0 a1 a2 a3) (256 * p0.val + p1.val) =
      some ([5, 0, 0, 1] ++ [a0, a1, a2, a3] ++ [p0, p1]) := by
  have h1 := p0.isLt
  have h2 := p1.isLt
  have hp := request_port_bytes p0 p1
  simp only [buildReply, h4, if_true, ipv4Bytes_dottedQuad]
  rw [if_pos (by omega)]
  simp only [Option.some.injEq]
  rw [hp]
  rfl

theorem buildReply_ipv6String (isIP : JsString → Nat) (addr : List Byte) (p0 p1 : Byte)
    (ha : addr.length = 16) (h6 : isIP (ipv6String addr) = 6) :
    buildReply isIP REP_SUCCEEDED (ipv6String addr) (256 * p0.val + p1.val) =
      some ([5, 0, 0, 4] ++ addr ++ [p0, p1]) := by
  have h1 := p0.isLt
  have h2 := p1.isLt
  have hp := request_port_bytes p0 p1
  have h64 : ¬ (6 : Nat) = 4 := by decide
  simp only [buildReply, h6, ipv6Bytes_ipv6String addr ha, if_neg h64, if_true]
  rw [if_pos (by omega), hp]
  rfl

/-! ## Teardown leaves the client bytes and the connections alone -/

theorem clientBytes_close (c : Socks5Connection) :
    clientBytes (close c).trace = clientBytes c.trace := by
  cases h : c.closed with
  | true => rw [close_of_closed c h]
  | false =>
    rw [close_of_open c h]
    simp only [clientBytes_append]
    split_ifs <;> simp [clientBytes]

theorem connects_close (c : Socks5Connection) :
    connects (close c).trace = connects c.trace := by
  cases h : c.closed with
  | true => rw [close_of_closed c h]
  | false =>
    rw [close_of_open c h]
    simp only [connects_append]
    split_ifs <;> simp [connects]

theorem close_closed (c : Socks5Connection) : (close c).closed = true := by
  cases h : c.closed with
  | true => rw [close_of_closed c h]; exact h
  | false => rw [close_of_open c h]

theorem isUnit_request_cmd (u : List Byte) (h : IsUnit Stage.request u) : byteAt u 1 = 1 := by
  cases h <;> rfl

/-! ## Configuration loader: what it returns and when it throws -/

theorem getEnv_unset (env : Env) (name : EnvVar) (dflt : Option JsString)
    (h : env name = none ∨ env name = some []) : getEnv env name dflt = dflt := by
  rcases h with h | h <;> simp [getEnv, h]

theorem getEnv_none_falsy (env : Env) (name : EnvVar)
    (h : env name = none ∨ env name = some []) : falsy (getEnv env name none) = true := by
  rw [getEnv_unset env name none h]
  rfl

theorem not_falsy (v : Option JsString) (h : falsy v = false) : ∃ s, v = some s ∧ s ≠ [] := by
  cases v with
  | none => simp [falsy] at h
  | some s => exact ⟨s, rfl, by simpa [falsy] using h⟩

theorem getEnv_none_some (env : Env) (name : EnvVar) (v : JsString)
    (h : getEnv env name none = some v) : env name = some v ∧ v ≠ [] := by
  unfold getEnv at h
  cases he : env name with
  | none => simp [he] at h
  | some x =>
    simp only [he] at h
    split_ifs at h with hx
    simp only [Option.some.injEq] at h
    subst h
    exact ⟨rfl, hx⟩

theorem loadConfig_ok (toLowerCase : JsString → JsString) (env : Env) (cfg : Config)
    (h : loadConfig toLowerCase env = ConfigResult.ok cfg) :
    (∃ s, getEnv env EnvVar.PROXY_PORT (some defaultPort) = some s ∧
        parseInt s 10 = some cfg.port) ∧
      1 ≤ cfg.port ∧ cfg.port ≤ 65535 ∧
      env EnvVar.PROXY_USER = some cfg.username ∧ cfg.username ≠ [] ∧
      env EnvVar.PROXY_PASS = some cfg.password ∧ cfg.password ≠ [] := by
  simp only [loadConfig] at h
  generalize hP : getEnv env EnvVar.PROXY_PORT (some defaultPort) = P at h
  generalize hL : getEnv env EnvVar.LOG_LEVEL (some defaultLogLevel) = L at h
  cases P with
  | none => simp at h
  | some s =>
    cases hp : parseInt s 10 with
    | none => simp [hp] at h
    | some p =>
      simp only [hp] at h
      split_ifs at h with h1 h2
      cases hU : getEnv env EnvVar.PROXY_USER none with
      | none => simp [hU, falsy] at h2
      | some u =>
        cases hW : getEnv env EnvVar.PROXY_PASS none with
        | none => simp [hW, falsy] at h2
        | some w =>
          obtain ⟨eu, nu⟩ := getEnv_none_some env _ u hU
          obtain ⟨ew, nw⟩ := getEnv_none_some env _ w hW
          cases L with
          | none => simp [hU, hW] at h
          | some l =>
            simp only [hU, hW, ConfigResult.ok.injEq] at h
            subst h
            have hlo : 1 ≤ p := by omega
            have hhi : p ≤ 65535 := by omega
            exact ⟨⟨s, rfl, hp⟩, hlo, hhi, eu, nu, ew, nw⟩

theorem loadConfig_missing (toLowerCase : JsString → JsString) (env : Env)
    (h : falsy (getEnv env EnvVar.PROXY_USER none) = true ∨
      falsy (getEnv env EnvVar.PROXY_PASS none) = true) :
    ∃ e, loadConfig toLowerCase env = ConfigResult.error e := by
  cases hr : loadConfig toLowerCase env with
  | error e => exact ⟨e, rfl⟩
  | ok cfg =>
    obtain ⟨-, -, -, eu, nu, ew, nw⟩ := loadConfig_ok toLowerCase env cfg hr
    exfalso
    rcases h with h | h
    · simp [getEnv, eu, nu, falsy] at h
    · simp [getEnv, ew, nw, falsy] at h

theorem loadConfig_bad_port (toLowerCase : JsString → JsString) (env : Env) (s : JsString)
    (hs : getEnv env EnvVar.PROXY_PORT (some defaultPort) = some s)
    (hbad : parseInt s 10 = none ∨ ∃ p, parseInt s 10 = some p ∧ (p ≤ 0 ∨ 65535 < p)) :
    loadConfig toLowerCase env = ConfigResult.error (ConfigError.invalidPort (some s)) := by
  rcases hbad with hn | ⟨p, hp, hr⟩
  · simp [loadConfig, hs, hn]
  · simp only [loadConfig, hs, hp]
    rw [if_pos (by omega)]

theorem ipv6String_eq (addr : List Byte) (ha : addr.length = 16) :
    join 58 ([0, 2, 4, 6, 8, 10, 12, 14].map
      (fun i => numToString 16 (readUInt16BE addr i))) = ipv6String addr := by
  match addr, ha with
  | [b0, b1, b2, b3, b4, b5, b6, b7, b8, b9, b10, b11, b12, b13, b14, b15], _ =>
    simp [ipv6String, groups16, readUInt16BE, byteAt]

/-! ## The decoded host, read back -/

theorem refTarget_ipv4 (rsv a0 a1 a2 a3 p0 p1 : Byte) :
    refTarget [5, 1, rsv, 1, a0, a1, a2, a3, p0, p1] =
      some (dottedQuad a0 a1 a2 a3, 256 * p0.val + p1.val) := by
  simp [refTarget, Fin.coe_ofNat_eq_mod]

theorem refTarget_domain (rsv dlen : Byte) (name : List Byte) (p0 p1 : Byte)
    (hn : name.length = dlen.val) :
    refTarget (5 :: 1 :: rsv :: 3 :: dlen :: (name ++ [p0, p1])) =
      some (utf8Decode name, 256 * p0.val + p1.val) := by
  simp [refTarget, Fin.coe_ofNat_eq_mod, drop_unit name _ _ hn, take_unit name _ _ hn]

theorem refTarget_ipv6 (rsv : Byte) (addr : List Byte) (p0 p1 : Byte)
    (ha : addr.length = 16) :
    refTarget (5 :: 1 :: rsv :: 4 :: (addr ++ [p0, p1])) =
      some (ipv6String addr, 256 * p0.val + p1.val) := by
  match addr, ha with
  | [b0, b1, b2, b3, b4, b5, b6, b7, b8, b9, b10, b11, b12, b13, b14, b15], _ =>
    simp [refTarget, ipv6String, groups16, Fin.coe_ofNat_eq_mod]

theorem utf8Loop_ascii (name : List Byte) (h : ∀ b ∈ name, b.val < 128) :
    utf8Loop Utf8State.init name = name.map (fun b => b.val) := by
  induction name with
  | nil => rfl
  | cons b bs ih =>
    have hb : b.val ≤ 0x7F := by
      have := h b (by simp)
      omega
    have hs : utf8Step Utf8State.init b.val = (Utf8State.init, [b.val]) := by
      simp [utf8Step, utf8Lead, Utf8State.init, hb]
    simp only [utf8Loop, hs, List.map_cons]
    rw [ih (fun x hx => h x (by simp [hx]))]
    rfl

theorem utf8Decode_ascii (name : List Byte) (h : ∀ b ∈ name, b.val < 128) :
    utf8Decode name = name.map (fun b => b.val) :=
  utf8Loop_ascii name h

theorem split_dottedQuad (a b c d : Byte) :
    (split 46 (dottedQuad a b c d)).map (digitsValue 10) = [a.val, b.val, c.val, d.val] := by
  have hs : ∀ x : Byte, (46 : Nat) ∉ numToString 10 x.val := fun x =>
    sep_not_mem_digits 10 46 (Or.inl rfl) _
      (isDigit_numToString 10 x.val (by decide) (by decide))
  unfold dottedQuad
  simp only [join]
  rw [split_append_sep 46 _ _ (hs a), split_append_sep 46 _ _ (hs b),
    split_append_sep 46 _ _ (hs c), split_no_sep 46 _ (hs d)]
  simp [digitsValue_numToString]

theorem split_ipv6String (addr : List Byte) (ha : addr.length = 16) :
    (split 58 (ipv6String addr)).map (digitsValue 16) = groups16 addr := by
  have hs : ∀ v : Nat, (58 : Nat) ∉ numToString 16 v := fun v =>
    sep_not_mem_digits 16 58 (Or.inr rfl) _
      (isDigit_numToString 16 v (by decide) (by decide))
  match addr, ha with
  | [b0, b1, b2, b3, b4, b5, b6, b7, b8, b9, b10, b11, b12, b13, b14, b15], _ =>
    unfold ipv6String
    simp only [groups16, List.map, join]
    rw [split_append_sep 58 _ _ (hs _), split_append_sep 58 _ _ (hs _),
      split_append_sep 58 _ _ (hs _), split_append_sep 58 _ _ (hs _),
      split_append_sep 58 _ _ (hs _), split_append_sep 58 _ _ (hs _),
      split_append_sep 58 _ _ (hs _), split_no_sep 58 _ (hs _)]
    simp [digitsValue_numToString]

/-! ## The claims -/

/-- C1 (fails on the code): for every valid greeting offering method 0x02, every
authentication message whose decoded name and password match the credentials and
every CONNECT request, a fresh connection fed the concatenated bytes one byte per
`"data"` event answers `[5, 2]` and `[1, 0]`, requests the outbound connection to
the decoded target and ends in stage `request`; fed the same bytes in a single
`"data"` event it answers only `[5, 2]`, requests no connection and stays in stage
`auth` with the authentication message and the request left in the buffer. -/
theorem single_chunk_handshake_stalls (isIP : JsString → Nat) (creds : Credentials)
    (nm : Byte) (methods : List Byte) (ulen plen : Byte) (uname passwd r : List Byte)
    (hlen : methods.length = nm.val) (hmem : (2 : Byte) ∈ methods)
    (hu : uname.length = ulen.val) (hp : passwd.length = plen.val)
    (hname : utf8Decode uname = creds.username) (hpass : utf8Decode passwd = creds.password)
    (hr : IsUnit Stage.request r) :
    ∃ host port, refTarget r = some (host, port) ∧
      feed isIP (Socks5Connection.new creds)
          (bytewise ((5 :: nm :: methods) ++ (1 :: ulen :: (uname ++ plen :: passwd)) ++ r)) =
        { Socks5Connection.new creds with
          stage := Stage.request, remotes := [(host, port)],
          trace := [Effect.write [5, 2], Effect.write [1, 0],
            Effect.createConnection host port] } ∧
      feed isIP (Socks5Connection.new creds)
          [(5 :: nm :: methods) ++ (1 :: ulen :: (uname ++ plen :: passwd)) ++ r] =
        { Socks5Connection.new creds with
          buffer := (1 :: ulen :: (uname ++ plen :: passwd)) ++ r,
          stage := Stage.auth, trace := [Effect.write [5, 2]] } := by
  obtain ⟨host, port, ht, hf⟩ := feed_unitwise isIP creds nm methods ulen plen uname passwd r
    hlen hmem hu hp hname hpass hr
  refine ⟨host, port, ht, ?_, ?_⟩
  · rw [feed_bytewise_handshake isIP creds nm methods ulen plen uname passwd r
      hlen hmem hu hp hname hpass hr, hf]
  · rw [List.append_assoc]
    exact feed_single_chunk isIP creds nm methods _ hlen hmem

theorem single_chunk_handshake_stalls_witness :
    ∃ host port, refTarget [5, 1, 0, 1, 127, 0, 0, 1, 0, 80] = some (host, port) ∧
      feed demoIsIP (Socks5Connection.new ⟨[117], [112]⟩)
          (bytewise (([5, 1, 2] : List Byte) ++ [1, 1, 117, 1, 112] ++
            [5, 1, 0, 1, 127, 0, 0, 1, 0, 80])) =
        { Socks5Connection.new ⟨[117], [112]⟩ with
          stage := Stage.request, remotes := [(host, port)],
          trace := [Effect.write [5, 2], Effect.write [1, 0],
            Effect.createConnection host port] } ∧
      feed demoIsIP (Socks5Connection.new ⟨[117], [112]⟩)
          [([5, 1, 2] : List Byte) ++ [1, 1, 117, 1, 112] ++
            [5, 1, 0, 1, 127, 0, 0, 1, 0, 80]] =
        { Socks5Connection.new ⟨[117], [112]⟩ with
          buffer := [1, 1, 117, 1, 112] ++ [5, 1, 0, 1, 127, 0, 0, 1, 0, 80],
          stage := Stage.auth, trace := [Effect.write [5, 2]] } :=
  single_chunk_handshake_stalls demoIsIP ⟨[117], [112]⟩ 1 [2] 1 1 [117] [112]
    [5, 1, 0, 1, 127, 0, 0, 1, 0, 80] rfl (by decide) rfl rfl (by decide) (by decide)
    (IsUnit.ipv4 0 127 0 0 1 0 80)

/-- C2: a greeting unit `[5, NMETHODS] ++ METHODS` whose methods contain 0x02,
delivered to a connection in stage `greeting` with an empty buffer, makes the
connection write exactly `[5, 2]`, not end the socket, and enter stage `auth`. -/
theorem greeting_with_userpass (isIP : JsString → Nat) (c : Socks5Connection)
    (nmethods : Byte) (methods : List Byte)
    (hstage : c.stage = Stage.greeting) (hbuf : c.buffer = [])
    (hlen : methods.length = nmethods.val) (hmem : (2 : Byte) ∈ methods) :
    onData isIP c (5 :: nmethods :: methods) =
      { c with buffer := [], stage := Stage.auth,
               trace := c.trace ++ [Effect.write [5, 2]] } := by
  have h := handleGreeting_unit { c with buffer := c.buffer ++ 5 :: nmethods :: methods }
    nmethods methods [] (by simp [hbuf]) hlen
  rw [onData_greeting isIP c _ hstage, h, if_pos hmem]

theorem greeting_with_userpass_witness :
    onData demoIsIP (Socks5Connection.new ⟨[117], [112]⟩) [5, 2, 0, 2] =
      { Socks5Connection.new ⟨[117], [112]⟩ with
        buffer := [], stage := Stage.auth, trace := [] ++ [Effect.write [5, 2]] } :=
  greeting_with_userpass demoIsIP (Socks5Connection.new ⟨[117], [112]⟩) 2 [0, 2]
    rfl rfl rfl (by decide)

/-- C3: a complete greeting unit with `VER = 5` whose methods do not contain 0x02
(`NMETHODS = 0` included) makes `handleGreeting` write exactly `[5, 0xFF]` and end
the client socket; the stage is left as it was, so it does not become `auth`. -/
theorem greeting_without_userpass (isIP : JsString → Nat) (c : Socks5Connection)
    (chunk : List Byte) (nmethods : Byte) (methods rest : List Byte)
    (hstage : c.stage = Stage.greeting)
    (hbuf : c.buffer ++ chunk = 5 :: nmethods :: (methods ++ rest))
    (hlen : methods.length = nmethods.val) (hmem : (2 : Byte) ∉ methods) :
    onData isIP c chunk =
        { c with buffer := rest,
                 trace := c.trace ++ [Effect.write [5, 0xFF], Effect.socketEnd] } ∧
      (onData isIP c chunk).stage = Stage.greeting := by
  have h : onData isIP c chunk =
      { c with buffer := rest,
               trace := c.trace ++ [Effect.write [5, 0xFF], Effect.socketEnd] } := by
    rw [onData_greeting isIP c _ hstage,
      handleGreeting_unit { c with buffer := c.buffer ++ chunk } nmethods methods rest hbuf hlen,
      if_neg hmem]
  exact ⟨h, by rw [h]; exact hstage⟩

theorem greeting_without_userpass_witness :
    onData demoIsIP (Socks5Connection.new ⟨[117], [112]⟩) [5, 0] =
        { Socks5Connection.new ⟨[117], [112]⟩ with
          buffer := [], trace := [] ++ [Effect.write [5, 0xFF], Effect.socketEnd] } ∧
      (onData demoIsIP (Socks5Connection.new ⟨[117], [112]⟩) [5, 0]).stage =
        Stage.greeting :=
  greeting_without_userpass demoIsIP (Socks5Connection.new ⟨[117], [112]⟩) [5, 0] 0 [] []
    rfl rfl rfl (by decide)

/-- C4 as stated fails: with the configured username U+FFFD and password `p`, the
submitted name byte `0xFF` (not the UTF-8 bytes `EF BF BD` of the configured name)
is accepted: `handleAuth` writes `[1, 0]` and enters stage `request`. -/
theorem auth_accepts_other_bytes :
    handleAuth (Socks5Connection.mk ⟨[0xFFFD], [112]⟩ Stage.auth [1, 1, 0xFF, 1, 112]
        [] [] 0 0 false []) =
      Socks5Connection.mk ⟨[0xFFFD], [112]⟩ Stage.request [] [] [] 0 0 false
        [Effect.write [1, 0]] ∧
    ([0xFF] : List Byte) ≠ utf8Encode [0xFFFD] := by
  decide

/-- C4, amended: for a complete authentication unit in stage `auth`,
`handleAuth` succeeds (consumes the unit, writes `[1, 0]`, enters stage `request`)
if and only if the UTF-8 decodings of the submitted `UNAME` and `PASSWD` bytes are
equal to the configured username and password; otherwise it consumes the unit,
writes `[1, 1]`, ends the client socket and leaves the stage unchanged. -/
theorem auth_succeeds_iff_decoded_match (c : Socks5Connection) (ulen plen : Byte)
    (uname passwd rest : List Byte) (hstage : c.stage = Stage.auth)
    (hbuf : c.buffer = 1 :: ulen :: (uname ++ plen :: (passwd ++ rest)))
    (hu : uname.length = ulen.val) (hp : passwd.length = plen.val) :
    (handleAuth c = { c with buffer := rest, stage := Stage.request,
                             trace := c.trace ++ [Effect.write [1, 0]] } ↔
      (utf8Decode uname = c.creds.username ∧ utf8Decode passwd = c.creds.password)) ∧
    (¬ (utf8Decode uname = c.creds.username ∧ utf8Decode passwd = c.creds.password) →
      handleAuth c = { c with buffer := rest,
                              trace := c.trace ++ [Effect.write [1, 1], Effect.socketEnd] }) := by
  have h := handleAuth_unit c ulen plen uname passwd rest hbuf hu hp
  by_cases hok : utf8Decode uname = c.creds.username ∧ utf8Decode passwd = c.creds.password
  · rw [if_pos hok] at h
    exact ⟨⟨fun _ => hok, fun _ => h⟩, fun hn => absurd hok hn⟩
  · rw [if_neg hok] at h
    refine ⟨⟨fun hs => ?_, fun hk => absurd hk hok⟩, fun _ => h⟩
    rw [h] at hs
    have := congrArg Socks5Connection.stage hs
    simp [hstage] at this

theorem auth_succeeds_iff_decoded_match_witness :
    (handleAuth (Socks5Connection.mk ⟨[117], [112]⟩ Stage.auth [1, 1, 117, 1, 112, 5]
        [] [] 0 0 false []) =
      Socks5Connection.mk ⟨[117], [112]⟩ Stage.request [5] [] [] 0 0 false
        [Effect.write [1, 0]]) ↔
      (utf8Decode [117] = ([117] : JsString) ∧ utf8Decode [112] = ([112] : JsString)) :=
  (auth_succeeds_iff_decoded_match
    (Socks5Connection.mk ⟨[117], [112]⟩ Stage.auth [1, 1, 117, 1, 112, 5] [] [] 0 0 false [])
    1 1 [117] [112] [5] rfl rfl rfl rfl).1

/-- C5: for every reply code byte, host string and port in `0..65535`,
`buildReply` returns `[5, code, 0, ATYP] ++ addrBytes ++ [port / 256, port % 256]`
where: for a dotted quad that `net.isIP` classifies as IPv4, `ATYP = 1` and the
address bytes are its four octets; for a host classified as IPv6 whose colon split
has 8 groups, all hextets, `ATYP = 4` and the address bytes are the big-endian
bytes of the 8 hextets; for a host classified as IPv6 whose colon split does not
have 8 groups, `ATYP = 4` with 16 zero bytes; for any other host `ATYP = 1` with
`[0, 0, 0, 0]`. -/
theorem buildReply_encoding (isIP : JsString → Nat) (rep : Byte) (host : JsString) (port : Nat)
    (hport : port ≤ 65535) :
    (∀ a b c d : Byte, host = dottedQuad a b c d → isIP host = 4 →
      buildReply isIP rep.val host port = some ([5, rep, 0, 1, a, b, c, d] ++ be16 port)) ∧
    (isIP host = 6 → (split 58 host).length = 8 → (∀ g ∈ split 58 host, isHextet g = true) →
      buildReply isIP rep.val host port =
        some ([5, rep, 0, 4] ++ (split 58 host).flatMap (fun g => be16 (hextetValue g)) ++
          be16 port)) ∧
    (isIP host = 6 → (split 58 host).length ≠ 8 →
      buildReply isIP rep.val host port =
        some ([5, rep, 0, 4] ++ List.replicate 16 0 ++ be16 port)) ∧
    (isIP host ≠ 4 → isIP host ≠ 6 →
      buildReply isIP rep.val host port = some ([5, rep, 0, 1, 0, 0, 0, 0] ++ be16 port)) := by
  have hrep : toUint8 (rep.val : Int) = rep := by rw [toUint8_natCast, byteOf_val]
  have h5 : toUint8 ((SOCKS_VERSION : Nat) : Int) = 5 := rfl
  have h1 : toUint8 ((ATYP_IPV4 : Nat) : Int) = 1 := rfl
  have h4 : toUint8 ((ATYP_IPV6 : Nat) : Int) = 4 := rfl
  refine ⟨?_, ?_, ?_, ?_⟩
  · intro a b c d hhost h4'
    unfold buildReply
    simp only [h4', if_true, hport, hrep, h5, h1, port_bytes]
    rw [hhost, ipv4Bytes_dottedQuad]
    rfl
  · intro h6 hlen hg
    have hne : isIP host ≠ 4 := by omega
    unfold buildReply
    simp only [hne, h6, if_true, if_false, hport, hrep, h5, h4, port_bytes]
    have hb : ipv6Bytes host = (split 58 host).flatMap (fun g => be16 (hextetValue g)) := by
      unfold ipv6Bytes
      have hl := flatMap_hextetBytes_length (split 58 host)
      simp only [hl, hlen]
      simp [flatMap_hextetBytes _ hg]
    rw [hb]
    simp
    rfl
  · intro h6 hlen
    have hne : isIP host ≠ 4 := by omega
    unfold buildReply
    simp only [hne, h6, if_true, if_false, hport, hrep, h5, h4, port_bytes]
    have hb : ipv6Bytes host = List.replicate 16 0 := by
      unfold ipv6Bytes
      have hl := flatMap_hextetBytes_length (split 58 host)
      simp only [hl]
      rw [if_pos (by omega)]
    rw [hb]
    simp
    rfl
  · intro hn4 hn6
    unfold buildReply
    simp only [hn4, hn6, if_false, hport, if_true, hrep, h5, h1, port_bytes]
    rfl

theorem buildReply_encoding_witness :
    buildReply demoIsIP 0 [49, 50, 55, 46, 48, 46, 48, 46, 49] 8080 =
      some [5, 0, 0, 1, 127, 0, 0, 1, 31, 144] ∧
    buildReply demoIsIP 0
        [50, 48, 48, 49, 58, 100, 98, 56, 58, 48, 58, 48, 58, 48, 58, 48, 58, 48, 58, 49] 443 =
      some [5, 0, 0, 4, 32, 1, 13, 184, 0, 0, 0, 0, 0, 0, 0, 0, 0, 0, 0, 1, 1, 187] ∧
    buildReply demoIsIP 0 [58, 58, 49] 443 =
      some [5, 0, 0, 4, 0, 0, 0, 0, 0, 0, 0, 0, 0, 0, 0, 0, 0, 0, 0, 0, 1, 187] ∧
    buildReply demoIsIP 4 [108, 111, 99, 97, 108] 0 =
      some [5, 4, 0, 1, 0, 0, 0, 0, 0, 0] :=
  ⟨(buildReply_encoding demoIsIP 0 [49, 50, 55, 46, 48, 46, 48, 46, 49] 8080 (by decide)).1
      127 0 0 1 (by decide) (by decide),
    ((buildReply_encoding demoIsIP 0
      [50, 48, 48, 49, 58, 100, 98, 56, 58, 48, 58, 48, 58, 48, 58, 48, 58, 48, 58, 49]
      443 (by decide)).2.1 (by decide) (by decide) (by decide)).trans (by decide),
    (buildReply_encoding demoIsIP 0 [58, 58, 49] 443 (by decide)).2.2.1 (by decide) (by decide),
    (buildReply_encoding demoIsIP 4 [108, 111, 99, 97, 108] 0 (by decide)).2.2.2
      (by decide) (by decide)⟩

/-- C6: for every complete CONNECT request (IPv4, domain or IPv6) completed in
stage `request`, the host and port handed to `establishRemote` are the reference
decoding `refTarget` of the request, and exactly that outbound connection is
requested. The host is pinned for each address type: for IPv4 it is the dotted
quad of the four address bytes, and splitting it on `.` and reading the groups in
decimal gives the four bytes back; for a domain it is the UTF-8 decoding of the
name bytes, which for bytes below 128 is those bytes as characters; for IPv6 it is
the colon-separated string of the eight groups, and splitting it on `:` and
reading the groups in hexadecimal gives the eight 16-bit values back. The port is
`256 * p0 + p1` in all three cases. -/
theorem connect_target_is_reference_decoding (isIP : JsString → Nat) (c : Socks5Connection)
    (chunk u trailing : List Byte) (hstage : c.stage = Stage.request)
    (hu : IsUnit Stage.request u) (hbuf : c.buffer ++ chunk = u ++ trailing) :
    ∃ host port, refTarget u = some (host, port) ∧
      onData isIP c chunk = establishRemote { c with buffer := trailing } host port ∧
      (onData isIP c chunk).trace = c.trace ++ [Effect.createConnection host port] ∧
      (∀ rsv a0 a1 a2 a3 p0 p1 : Byte, u = [5, 1, rsv, 1, a0, a1, a2, a3, p0, p1] →
        host = dottedQuad a0 a1 a2 a3 ∧
        (split 46 host).map (digitsValue 10) = [a0.val, a1.val, a2.val, a3.val] ∧
        port = 256 * p0.val + p1.val) ∧
      (∀ (rsv dlen : Byte) (name : List Byte) (p0 p1 : Byte),
        u = 5 :: 1 :: rsv :: 3 :: dlen :: (name ++ [p0, p1]) → name.length = dlen.val →
        host = utf8Decode name ∧
        ((∀ b ∈ name, b.val < 128) → host = name.map (fun b => b.val)) ∧
        port = 256 * p0.val + p1.val) ∧
      (∀ (rsv : Byte) (addr : List Byte) (p0 p1 : Byte),
        u = 5 :: 1 :: rsv :: 4 :: (addr ++ [p0, p1]) → addr.length = 16 →
        host = ipv6String addr ∧
        (split 58 host).map (digitsValue 16) = groups16 addr ∧
        port = 256 * p0.val + p1.val) := by
  obtain ⟨host, port, ht, h⟩ := onData_request_unit isIP c chunk u trailing hstage hu hbuf
  refine ⟨host, port, ht, h, by rw [h]; rfl, ?_, ?_, ?_⟩
  · intro rsv a0 a1 a2 a3 p0 p1 e
    rw [e, refTarget_ipv4] at ht
    obtain ⟨rfl, rfl⟩ := Prod.mk.inj (Option.some.inj ht)
    exact ⟨rfl, split_dottedQuad a0 a1 a2 a3, rfl⟩
  · intro rsv dlen name p0 p1 e hn
    rw [e, refTarget_domain rsv dlen name p0 p1 hn] at ht
    obtain ⟨rfl, rfl⟩ := Prod.mk.inj (Option.some.inj ht)
    exact ⟨rfl, fun ha => utf8Decode_ascii name ha, rfl⟩
  · intro rsv addr p0 p1 e ha
    rw [e, refTarget_ipv6 rsv addr p0 p1 ha] at ht
    obtain ⟨rfl, rfl⟩ := Prod.mk.inj (Option.some.inj ht)
    exact ⟨rfl, split_ipv6String addr ha, rfl⟩

theorem connect_target_is_reference_decoding_witness :
    (onData demoIsIP (Socks5Connection.mk ⟨[117], [112]⟩ Stage.request [5, 1] [] [] 0 0
          false []) [0, 3, 2, 97, 98, 1, 187, 9] =
        establishRemote { Socks5Connection.mk ⟨[117], [112]⟩ Stage.request [5, 1] [] [] 0 0
          false [] with buffer := [9] } [97, 98] 443 ∧
      (onData demoIsIP (Socks5Connection.mk ⟨[117], [112]⟩ Stage.request [5, 1] [] [] 0 0
          false []) [0, 3, 2, 97, 98, 1, 187, 9]).trace =
        [] ++ [Effect.createConnection [97, 98] 443]) ∧
      (onData demoIsIP (Socks5Connection.mk ⟨[117], [112]⟩ Stage.request [] [] [] 0 0
          false []) [5, 1, 0, 1, 192, 168, 1, 10, 0, 80]).trace =
        [] ++ [Effect.createConnection [49, 57, 50, 46, 49, 54, 56, 46, 49, 46, 49, 48] 80] ∧
      (onData demoIsIP (Socks5Connection.mk ⟨[117], [112]⟩ Stage.request [] [] [] 0 0
          false [])
          [5, 1, 0, 4, 32, 1, 13, 184, 0, 0, 0, 0, 0, 0, 0, 0, 255, 0, 0, 1, 1, 187]).trace =
        [] ++ [Effect.createConnection
          [50, 48, 48, 49, 58, 100, 98, 56, 58, 48, 58, 48, 58, 48, 58, 48, 58, 102, 102, 48, 48,
            58, 49] 443] := by
  refine ⟨?_, ?_, ?_⟩
  · obtain ⟨host, port, ht, h, htr, -⟩ := connect_target_is_reference_decoding demoIsIP
      (Socks5Connection.mk ⟨[117], [112]⟩ Stage.request [5, 1] [] [] 0 0 false [])
      [0, 3, 2, 97, 98, 1, 187, 9] [5, 1, 0, 3, 2, 97, 98, 1, 187] [9] rfl
      (IsUnit.domain 0 2 [97, 98] 1 187 rfl) rfl
    have e : some (host, port) = some ([97, 98], 443) := ht.symm.trans (by decide)
    obtain ⟨rfl, rfl⟩ := Prod.mk.inj (Option.some.inj e)
    exact ⟨h, htr⟩
  · obtain ⟨host, port, ht, -, htr, -⟩ := connect_target_is_reference_decoding demoIsIP
      (Socks5Connection.mk ⟨[117], [112]⟩ Stage.request [] [] [] 0 0 false [])
      [5, 1, 0, 1, 192, 168, 1, 10, 0, 80] [5, 1, 0, 1, 192, 168, 1, 10, 0, 80] [] rfl
      (IsUnit.ipv4 0 192 168 1 10 0 80) rfl
    have e : some (host, port) =
        some ([49, 57, 50, 46, 49, 54, 56, 46, 49, 46, 49, 48], 80) :=
      ht.symm.trans (by decide)
    obtain ⟨rfl, rfl⟩ := Prod.mk.inj (Option.some.inj e)
    exact htr
  · obtain ⟨host, port, ht, -, htr, -⟩ := connect_target_is_reference_decoding demoIsIP
      (Socks5Connection.mk ⟨[117], [112]⟩ Stage.request [] [] [] 0 0 false [])
      [5, 1, 0, 4, 32, 1, 13, 184, 0, 0, 0, 0, 0, 0, 0, 0, 255, 0, 0, 1, 1, 187]
      (5 :: 1 :: 0 :: 4 :: ([32, 1, 13, 184, 0, 0, 0, 0, 0, 0, 0, 0, 255, 0, 0, 1] ++ [1, 187]))
      [] rfl (IsUnit.ipv6 0 [32, 1, 13, 184, 0, 0, 0, 0, 0, 0, 0, 0, 255, 0, 0, 1] 1 187 rfl)
      rfl
    have e : some (host, port) =
        some ([50, 48, 48, 49, 58, 100, 98, 56, 58, 48, 58, 48, 58, 48, 58, 48, 58, 102, 102,
          48, 48, 58, 49], 443) :=
      ht.symm.trans (by decide)
    obtain ⟨rfl, rfl⟩ := Prod.mk.inj (Option.some.inj e)
    exact htr

/-- C7: in every handshake stage, a `"data"` event after which the buffer still
lacks at least one byte of a well-formed unit of that stage changes nothing but
the buffer, which becomes the old buffer followed by the chunk: nothing is
written, the socket is not ended, no outbound connection is started and the stage
is unchanged. -/
theorem incomplete_unit_waits (isIP : JsString → Nat) (c : Socks5Connection)
    (chunk u rest : List Byte) (hu : IsUnit c.stage u) (hrest : rest ≠ [])
    (hpre : (c.buffer ++ chunk) ++ rest = u) :
    onData isIP c chunk = { c with buffer := c.buffer ++ chunk } :=
  onData_incomplete isIP c chunk u rest hu hrest hpre

theorem incomplete_unit_waits_witness :
    onData demoIsIP
        (Socks5Connection.mk ⟨[117], [112]⟩ Stage.request [5, 1, 0, 3] [] [] 0 0 false [])
        [4, 97, 46] =
      { Socks5Connection.mk ⟨[117], [112]⟩ Stage.request [5, 1, 0, 3] [] [] 0 0 false [] with
        buffer := [5, 1, 0, 3] ++ [4, 97, 46] } :=
  incomplete_unit_waits demoIsIP
    (Socks5Connection.mk ⟨[117], [112]⟩ Stage.request [5, 1, 0, 3] [] [] 0 0 false [])
    [4, 97, 46] (5 :: 1 :: 0 :: 3 :: 4 :: ([97, 46, 105, 111] ++ [1, 187])) [105, 111, 1, 187]
    (IsUnit.domain 0 4 [97, 46, 105, 111] 1 187 rfl) (by decide) rfl

/-- C8: in every handshake stage, when the buffer after appending the chunk is a
complete well-formed unit of that stage followed by trailing bytes, the stage
handler removes exactly the unit: the buffer afterwards is the trailing bytes. -/
theorem unit_consumed_exactly (isIP : JsString → Nat) (c : Socks5Connection)
    (chunk u trailing : List Byte) (hu : IsUnit c.stage u)
    (hbuf : c.buffer ++ chunk = u ++ trailing) :
    (onData isIP c chunk).buffer = trailing := by
  have key : ∀ st, IsUnit st u → c.stage = st → (onData isIP c chunk).buffer = trailing := by
    intro st hu hst
    cases hu with
    | greeting nm methods hlen =>
      rw [onData_greeting isIP c _ hst]
      rw [handleGreeting_unit _ nm methods trailing (by simpa using hbuf) hlen]
      split <;> rfl
    | auth ulen uname plen passwd hul hpl =>
      rw [onData_auth isIP c _ hst]
      rw [handleAuth_unit _ ulen plen uname passwd trailing (by simpa using hbuf) hul hpl]
      split <;> rfl
    | ipv4 rsv a0 a1 a2 a3 p0 p1 =>
      rw [onData_request isIP c _ hst]
      rw [handleRequest_ipv4 isIP _ rsv a0 a1 a2 a3 p0 p1 trailing (by simpa using hbuf)]
      rfl
    | domain rsv dlen name p0 p1 hn =>
      rw [onData_request isIP c _ hst]
      rw [handleRequest_domain isIP _ rsv dlen name p0 p1 trailing hn (by simpa using hbuf)]
      rfl
    | ipv6 rsv addr p0 p1 ha =>
      rw [onData_request isIP c _ hst]
      rw [handleRequest_ipv6 isIP _ rsv addr p0 p1 trailing ha (by simpa using hbuf)]
      rfl
  exact key _ hu rfl

theorem unit_consumed_exactly_witness :
    (onData demoIsIP
        (Socks5Connection.mk ⟨[117], [112]⟩ Stage.auth [1, 1] [] [] 0 0 false [])
        [117, 1, 112, 5, 1, 0]).buffer = [5, 1, 0] :=
  unit_consumed_exactly demoIsIP
    (Socks5Connection.mk ⟨[117], [112]⟩ Stage.auth [1, 1] [] [] 0 0 false [])
    [117, 1, 112, 5, 1, 0] (1 :: 1 :: ([117] ++ 1 :: [112])) [5, 1, 0]
    (IsUnit.auth 1 [117] 1 [112] rfl rfl) rfl

/-- C9 (fails on the code): after a handshake, a CONNECT request followed, while
the first outbound connection is still pending, by a second `"data"` event holding
another CONNECT request makes the connection call `net.createConnection` twice,
once for each decoded target. -/
theorem second_request_opens_second_connection (isIP : JsString → Nat) (creds : Credentials)
    (nm : Byte) (methods : List Byte) (ulen plen : Byte) (uname passwd r₁ r₂ : List Byte)
    (hlen : methods.length = nm.val) (hmem : (2 : Byte) ∈ methods)
    (hu : uname.length = ulen.val) (hp : passwd.length = plen.val)
    (hname : utf8Decode uname = creds.username) (hpass : utf8Decode passwd = creds.password)
    (h₁ : IsUnit Stage.request r₁) (h₂ : IsUnit Stage.request r₂) :
    ∃ t₁ t₂, refTarget r₁ = some t₁ ∧ refTarget r₂ = some t₂ ∧
      connects (run isIP (Socks5Connection.new creds)
        [Event.socketData (5 :: nm :: methods),
          Event.socketData (1 :: ulen :: (uname ++ plen :: passwd)),
          Event.socketData r₁, Event.socketData r₂]).trace = [t₁, t₂] := by
  have h12 := run_greeting_auth isIP creds nm methods ulen plen uname passwd hlen hmem hu hp
    hname hpass
  obtain ⟨host₁, port₁, ht₁, e₁⟩ := onData_request_unit isIP
    (Socks5Connection.mk creds Stage.request [] [] [] 0 0 false
      [Effect.write [5, 2], Effect.write [1, 0]]) r₁ r₁ [] rfl h₁ (by simp)
  have s₃ := step_socketData_handshake isIP _ _ _ rfl rfl e₁ (by simp [establishRemote, emit])
  obtain ⟨host₂, port₂, ht₂, e₂⟩ := onData_request_unit isIP
    (establishRemote (Socks5Connection.mk creds Stage.request [] [] [] 0 0 false
      [Effect.write [5, 2], Effect.write [1, 0]]) host₁ port₁) r₂ r₂ [] rfl h₂
    (by simp [establishRemote, emit])
  have s₄ := step_socketData_handshake isIP _ _ _ rfl rfl e₂ (by simp [establishRemote, emit])
  refine ⟨(host₁, port₁), (host₂, port₂), ht₁, ht₂, ?_⟩
  have hsplit : run isIP (Socks5Connection.new creds)
      [Event.socketData (5 :: nm :: methods),
        Event.socketData (1 :: ulen :: (uname ++ plen :: passwd)),
        Event.socketData r₁, Event.socketData r₂] =
      step isIP (step isIP (run isIP (Socks5Connection.new creds)
        [Event.socketData (5 :: nm :: methods),
          Event.socketData (1 :: ulen :: (uname ++ plen :: passwd))])
        (Event.socketData r₁)) (Event.socketData r₂) := rfl
  rw [hsplit, h12, s₃, s₄]
  simp [establishRemote, emit, connects]

theorem second_request_opens_second_connection_witness :
    ∃ t₁ t₂, refTarget [5, 1, 0, 1, 127, 0, 0, 1, 0, 80] = some t₁ ∧
      refTarget [5, 1, 0, 1, 127, 0, 0, 1, 1, 187] = some t₂ ∧
      connects (run demoIsIP (Socks5Connection.new ⟨[117], [112]⟩)
        [Event.socketData [5, 1, 2], Event.socketData (1 :: 1 :: ([117] ++ 1 :: [112])),
          Event.socketData [5, 1, 0, 1, 127, 0, 0, 1, 0, 80],
          Event.socketData [5, 1, 0, 1, 127, 0, 0, 1, 1, 187]]).trace = [t₁, t₂] :=
  second_request_opens_second_connection demoIsIP ⟨[117], [112]⟩ 1 [2] 1 1 [117] [112]
    [5, 1, 0, 1, 127, 0, 0, 1, 0, 80] [5, 1, 0, 1, 127, 0, 0, 1, 1, 187]
    rfl (by decide) rfl rfl (by decide) (by decide)
    (IsUnit.ipv4 0 127 0 0 1 0 80) (IsUnit.ipv4 0 127 0 0 1 1 187)

/-- C10 (fails on the code): when bytes `extra` follow the CONNECT request in the
same chunk, then after the outbound connection is established and a later chunk
`later` arrives, the bytes forwarded to the target are `later` alone; `extra` was
never forwarded and still sits in the receive buffer. -/
theorem pipelined_bytes_not_forwarded (isIP : JsString → Nat) (creds : Credentials)
    (nm : Byte) (methods : List Byte) (ulen plen : Byte)
    (uname passwd r extra later : List Byte)
    (hlen : methods.length = nm.val) (hmem : (2 : Byte) ∈ methods)
    (hu : uname.length = ulen.val) (hp : passwd.length = plen.val)
    (hname : utf8Decode uname = creds.username) (hpass : utf8Decode passwd = creds.password)
    (hr : IsUnit Stage.request r) :
    ∃ s, run isIP (Socks5Connection.new creds)
        [Event.socketData (5 :: nm :: methods),
          Event.socketData (1 :: ulen :: (uname ++ plen :: passwd)),
          Event.socketData (r ++ extra), Event.remoteConnect 0, Event.socketData later] = s ∧
      s.stage = Stage.stream ∧ s.piped = [0] ∧ s.closed = false ∧
      forwarded 0 s.trace = later ∧ s.buffer = extra ++ later := by
  have h12 := run_greeting_auth isIP creds nm methods ulen plen uname passwd hlen hmem hu hp
    hname hpass
  obtain ⟨host, port, _, e⟩ := onData_request_unit isIP
    (Socks5Connection.mk creds Stage.request [] [] [] 0 0 false
      [Effect.write [5, 2], Effect.write [1, 0]]) (r ++ extra) r extra rfl hr (by simp)
  have s₃ := step_socketData_handshake isIP _ _ _ rfl rfl e (by simp [establishRemote, emit])
  have hsplit : run isIP (Socks5Connection.new creds)
      [Event.socketData (5 :: nm :: methods),
        Event.socketData (1 :: ulen :: (uname ++ plen :: passwd)),
        Event.socketData (r ++ extra), Event.remoteConnect 0, Event.socketData later] =
      step isIP (step isIP (step isIP (run isIP (Socks5Connection.new creds)
        [Event.socketData (5 :: nm :: methods),
          Event.socketData (1 :: ulen :: (uname ++ plen :: passwd))])
        (Event.socketData (r ++ extra))) (Event.remoteConnect 0)) (Event.socketData later) := rfl
  refine ⟨_, rfl, ?_⟩
  rw [hsplit, h12, s₃]
  obtain ⟨w1, w2, w3, w4, w5, w6, w7, w8⟩ := writeReply_fields isIP
    (establishRemote (Socks5Connection.mk creds Stage.request extra [] [] 0 0 false
      [Effect.write [5, 2], Effect.write [1, 0]]) host port) REP_SUCCEEDED host port
  have wf := forwarded_writeReply isIP
    (establishRemote (Socks5Connection.mk creds Stage.request extra [] [] 0 0 false
      [Effect.write [5, 2], Effect.write [1, 0]]) host port) REP_SUCCEEDED host port 0
  simp [step, remoteDestroyed, onRemoteConnect, onSocketData, onData, establishRemote, emit,
    forwarded_append, forwarded] at w1 w2 w3 w4 w5 w6 w7 w8 wf ⊢
  generalize writeReply isIP _ REP_SUCCEEDED host port = W at w1 w2 w3 w4 w5 w6 w7 w8 wf ⊢
  simp [w2, w3, w4, w5, w6, w7, w8, wf, forwarded_append, forwarded]

theorem pipelined_bytes_not_forwarded_witness :
    ∃ s, run demoIsIP (Socks5Connection.new ⟨[117], [112]⟩)
        [Event.socketData [5, 1, 2], Event.socketData (1 :: 1 :: ([117] ++ 1 :: [112])),
          Event.socketData ([5, 1, 0, 1, 127, 0, 0, 1, 0, 80] ++ [71, 69, 84]),
          Event.remoteConnect 0, Event.socketData [32, 47]] = s ∧
      s.stage = Stage.stream ∧ s.piped = [0] ∧ s.closed = false ∧
      forwarded 0 s.trace = [32, 47] ∧ s.buffer = [71, 69, 84] ++ [32, 47] :=
  pipelined_bytes_not_forwarded demoIsIP ⟨[117], [112]⟩ 1 [2] 1 1 [117] [112]
    [5, 1, 0, 1, 127, 0, 0, 1, 0, 80] [71, 69, 84] [32, 47]
    rfl (by decide) rfl rfl (by decide) (by decide) (IsUnit.ipv4 0 127 0 0 1 0 80)

/-- C11: ordering the stages greeting, auth, request, stream, every event (client
data, error or close of the client socket, connect success, data, error or close
of an outbound socket) applied to a state reached from a fresh connection leaves
the stage where it is or moves it to the immediately following stage. -/
theorem stage_moves_forward_by_one (isIP : JsString → Nat) (creds : Credentials)
    (events : List Event) (e : Event) :
    (run isIP (Socks5Connection.new creds) events).stage.rank ≤
        (step isIP (run isIP (Socks5Connection.new creds) events) e).stage.rank ∧
      (step isIP (run isIP (Socks5Connection.new creds) events) e).stage.rank ≤
        (run isIP (Socks5Connection.new creds) events).stage.rank + 1 :=
  (step_stage_step isIP _ e (run_stage_inv isIP creds events)).2

/-- C12 (counterexample): a BIND request (`CMD = 2`) received in stage `request`
empties the receive buffer, although the ten bytes removed are not a protocol unit
of that stage. -/
theorem rejected_command_clears_buffer :
    (onData demoIsIP (Socks5Connection.mk ⟨[117], [112]⟩ Stage.request [] [] [] 0 0 false [])
        [5, 2, 0, 1, 127, 0, 0, 1, 0, 80]).buffer = [] ∧
      ¬ IsUnit Stage.request [5, 2, 0, 1, 127, 0, 0, 1, 0, 80] :=
  ⟨by decide, fun h => absurd (isUnit_request_cmd _ h) (by decide)⟩

/-- C12 (amended): the buffer after `onData` is the old buffer followed by the
chunk with a prefix removed, and one of three things happened: nothing was
removed; exactly one complete unit of the current stage was removed; or, in stage
`request`, at least four bytes with `VER = 5` and a command other than CONNECT
were there and the whole buffer was removed. -/
theorem buffer_append_then_drop_prefix (isIP : JsString → Nat) (c : Socks5Connection)
    (chunk : List Byte) :
    (∃ removed, c.buffer ++ chunk = removed ++ (onData isIP c chunk).buffer) ∧
      ((onData isIP c chunk).buffer = c.buffer ++ chunk ∨
        (∃ u rest, c.buffer ++ chunk = u ++ rest ∧ IsUnit c.stage u ∧
          (onData isIP c chunk).buffer = rest) ∨
        (c.stage = Stage.request ∧ 4 ≤ (c.buffer ++ chunk).length ∧
          byteAt (c.buffer ++ chunk) 0 = 5 ∧ byteAt (c.buffer ++ chunk) 1 ≠ 1 ∧
          (onData isIP c chunk).buffer = [])) := by
  have h := onData_buffer isIP c chunk
  refine ⟨?_, h⟩
  rcases h with h | ⟨u, rest, e, -, h⟩ | ⟨-, -, -, -, h⟩
  · exact ⟨[], by rw [h]; rfl⟩
  · exact ⟨u, by rw [h, e]⟩
  · exact ⟨c.buffer ++ chunk, by rw [h]; simp⟩

/-- C13: in stage `request`, once at least four bytes are buffered with `VER = 5`
and a command other than CONNECT, the handler writes exactly the reply
`05 07 00 01 00 00 00 00 00 00`, ends the client socket, requests no outbound
connection and leaves the stage at `request`; `net.isIP` classifies `0.0.0.0` as
IPv4. -/
theorem unsupported_command_reply (isIP : JsString → Nat) (h4 : isIP defaultHost = 4)
    (c : Socks5Connection) (chunk : List Byte) (hst : c.stage = Stage.request)
    (hlen : 4 ≤ (c.buffer ++ chunk).length) (hver : byteAt (c.buffer ++ chunk) 0 = 5)
    (hcmd : byteAt (c.buffer ++ chunk) 1 ≠ 1) :
    handleRequest isIP { c with buffer := c.buffer ++ chunk } = onData isIP c chunk ∧
      (onData isIP c chunk).trace =
        c.trace ++ [Effect.write [5, 7, 0, 1, 0, 0, 0, 0, 0, 0], Effect.socketEnd] ∧
      connects (onData isIP c chunk).trace = connects c.trace ∧
      (onData isIP c chunk).remotes = c.remotes ∧
      (onData isIP c chunk).stage = Stage.request := by
  have h := handleRequest_bad_command isIP h4 { c with buffer := c.buffer ++ chunk } hlen hver
    hcmd
  rw [onData_request isIP c chunk hst, h]
  refine ⟨rfl, rfl, ?_, rfl, hst⟩
  simp [connects_append, connects]

theorem unsupported_command_reply_witness :
    handleRequest demoIsIP { Socks5Connection.mk ⟨[117], [112]⟩ Stage.request [5, 2] [] [] 0 0
          false [] with buffer := [5, 2] ++ [0, 1, 127, 0, 0, 1, 0, 80] } =
        onData demoIsIP (Socks5Connection.mk ⟨[117], [112]⟩ Stage.request [5, 2] [] [] 0 0
          false []) [0, 1, 127, 0, 0, 1, 0, 80] ∧
      (onData demoIsIP (Socks5Connection.mk ⟨[117], [112]⟩ Stage.request [5, 2] [] [] 0 0
          false []) [0, 1, 127, 0, 0, 1, 0, 80]).trace =
        [] ++ [Effect.write [5, 7, 0, 1, 0, 0, 0, 0, 0, 0], Effect.socketEnd] ∧
      connects (onData demoIsIP (Socks5Connection.mk ⟨[117], [112]⟩ Stage.request [5, 2] [] []
          0 0 false []) [0, 1, 127, 0, 0, 1, 0, 80]).trace = connects [] ∧
      (onData demoIsIP (Socks5Connection.mk ⟨[117], [112]⟩ Stage.request [5, 2] [] [] 0 0
          false []) [0, 1, 127, 0, 0, 1, 0, 80]).remotes = [] ∧
      (onData demoIsIP (Socks5Connection.mk ⟨[117], [112]⟩ Stage.request [5, 2] [] [] 0 0
          false []) [0, 1, 127, 0, 0, 1, 0, 80]).stage = Stage.request :=
  unsupported_command_reply demoIsIP (by decide)
    (Socks5Connection.mk ⟨[117], [112]⟩ Stage.request [5, 2] [] [] 0 0 false [])
    [0, 1, 127, 0, 0, 1, 0, 80] rfl (by decide) (by decide) (by decide)

/-- C14: in stage `request`, once at least four bytes are buffered with `VER = 5`,
`CMD = 1` and an address type other than 1, 3 and 4, the handler writes exactly
the reply `05 08 00 01 00 00 00 00 00 00`, ends the client socket, requests no
outbound connection and leaves the stage at `request`; `net.isIP` classifies
`0.0.0.0` as IPv4. -/
theorem unsupported_address_type_reply (isIP : JsString → Nat) (h4 : isIP defaultHost = 4)
    (c : Socks5Connection) (chunk : List Byte) (hst : c.stage = Stage.request)
    (hlen : 4 ≤ (c.buffer ++ chunk).length) (hver : byteAt (c.buffer ++ chunk) 0 = 5)
    (hcmd : byteAt (c.buffer ++ chunk) 1 = 1) (h1 : byteAt (c.buffer ++ chunk) 3 ≠ 1)
    (h3 : byteAt (c.buffer ++ chunk) 3 ≠ 3) (h6 : byteAt (c.buffer ++ chunk) 3 ≠ 4) :
    handleRequest isIP { c with buffer := c.buffer ++ chunk } = onData isIP c chunk ∧
      (onData isIP c chunk).trace =
        c.trace ++ [Effect.write [5, 8, 0, 1, 0, 0, 0, 0, 0, 0], Effect.socketEnd] ∧
      connects (onData isIP c chunk).trace = connects c.trace ∧
      (onData isIP c chunk).remotes = c.remotes ∧
      (onData isIP c chunk).stage = Stage.request := by
  have h := handleRequest_bad_atyp isIP h4 { c with buffer := c.buffer ++ chunk } hlen hver
    hcmd h1 h3 h6
  rw [onData_request isIP c chunk hst, h]
  refine ⟨rfl, rfl, ?_, rfl, hst⟩
  simp [connects_append, connects]

theorem unsupported_address_type_reply_witness :
    handleRequest demoIsIP { Socks5Connection.mk ⟨[117], [112]⟩ Stage.request [5, 1] [] [] 0 0
          false [] with buffer := [5, 1] ++ [0, 5, 127, 0, 0, 1, 0, 80] } =
        onData demoIsIP (Socks5Connection.mk ⟨[117], [112]⟩ Stage.request [5, 1] [] [] 0 0
          false []) [0, 5, 127, 0, 0, 1, 0, 80] ∧
      (onData demoIsIP (Socks5Connection.mk ⟨[117], [112]⟩ Stage.request [5, 1] [] [] 0 0
          false []) [0, 5, 127, 0, 0, 1, 0, 80]).trace =
        [] ++ [Effect.write [5, 8, 0, 1, 0, 0, 0, 0, 0, 0], Effect.socketEnd] ∧
      connects (onData demoIsIP (Socks5Connection.mk ⟨[117], [112]⟩ Stage.request [5, 1] [] []
          0 0 false []) [0, 5, 127, 0, 0, 1, 0, 80]).trace = connects [] ∧
      (onData demoIsIP (Socks5Connection.mk ⟨[117], [112]⟩ Stage.request [5, 1] [] [] 0 0
          false []) [0, 5, 127, 0, 0, 1, 0, 80]).remotes = [] ∧
      (onData demoIsIP (Socks5Connection.mk ⟨[117], [112]⟩ Stage.request [5, 1] [] [] 0 0
          false []) [0, 5, 127, 0, 0, 1, 0, 80]).stage = Stage.request :=
  unsupported_address_type_reply demoIsIP (by decide)
    (Socks5Connection.mk ⟨[117], [112]⟩ Stage.request [5, 1] [] [] 0 0 false [])
    [0, 5, 127, 0, 0, 1, 0, 80] rfl (by decide) (by decide) (by decide) (by decide) (by decide)
    (by decide)

/-- C15: an error event of an outbound socket, when the stage is not `stream`,
writes exactly one reply `05 rep 00 01 00 00 00 00 00 00` with `rep = 4` for
`ENOTFOUND`, `5` for `ECONNREFUSED` and `1` for any other error, then closes the
connection, the stage staying where it was; when the stage is `stream` it writes
nothing and closes the connection. `net.isIP` classifies `0.0.0.0` as IPv4. -/
theorem outbound_error_reply (isIP : JsString → Nat) (h4 : isIP defaultHost = 4)
    (c : Socks5Connection) (i : Nat) (code : ErrCode) (hi : i < c.remotes.length) :
    (c.stage ≠ Stage.stream →
        step isIP c (Event.remoteError i code) =
          close (emit c (Effect.write [5, failureCode code, 0, 1, 0, 0, 0, 0, 0, 0])) ∧
        clientBytes (step isIP c (Event.remoteError i code)).trace =
          clientBytes c.trace ++ [5, failureCode code, 0, 1, 0, 0, 0, 0, 0, 0]) ∧
      (c.stage = Stage.stream →
        step isIP c (Event.remoteError i code) = close c ∧
        clientBytes (step isIP c (Event.remoteError i code)).trace = clientBytes c.trace) ∧
      (step isIP c (Event.remoteError i code)).stage = c.stage ∧
      (step isIP c (Event.remoteError i code)).closed = true ∧
      connects (step isIP c (Event.remoteError i code)).trace = connects c.trace := by
  have h := step_remoteError isIP h4 c i code hi
  by_cases hs : c.stage = Stage.stream
  · rw [if_pos hs] at h
    rw [h]
    exact ⟨fun hn => absurd hs hn, fun _ => ⟨rfl, clientBytes_close c⟩, close_stage c,
      close_closed c, connects_close c⟩
  · rw [if_neg hs] at h
    rw [h]
    refine ⟨fun _ => ⟨rfl, ?_⟩, fun hn => absurd hn hs, ?_, close_closed _, ?_⟩
    · rw [clientBytes_close]
      simp [emit, clientBytes_append, clientBytes, failureReply]
    · rw [close_stage]
      rfl
    · rw [connects_close]
      simp [emit, connects_append, connects]

theorem outbound_error_reply_witness :
    step demoIsIP (Socks5Connection.mk ⟨[117], [112]⟩ Stage.request []
          [([49, 50, 55, 46, 48, 46, 48, 46, 49], 80)] [] 0 0 false [])
        (Event.remoteError 0 ErrCode.ECONNREFUSED) =
      Socks5Connection.mk ⟨[117], [112]⟩ Stage.request []
        [([49, 50, 55, 46, 48, 46, 48, 46, 49], 80)] [] 0 0 true
        [Effect.write [5, 5, 0, 1, 0, 0, 0, 0, 0, 0], Effect.remoteDestroy 0,
          Effect.socketDestroy] :=
  ((outbound_error_reply demoIsIP (by decide)
    (Socks5Connection.mk ⟨[117], [112]⟩ Stage.request []
      [([49, 50, 55, 46, 48, 46, 48, 46, 49], 80)] [] 0 0 false [])
    0 ErrCode.ECONNREFUSED (by decide)).1 (by decide)).1.trans (by decide)

/-- C16: the first call of `close` sets `closed`, destroys the outbound socket held
in `this.remote` if there is one and destroys the client socket; a call on a
closed connection changes nothing and destroys nothing; so two calls in a row
leave the state, and the destroy calls recorded in it, of a single call. -/
theorem close_idempotent (c : Socks5Connection) :
    (c.closed = false →
        close c = { c with
          closed := true
          trace := c.trace ++
            (if c.remotes = [] then [] else [Effect.remoteDestroy (c.remotes.length - 1)]) ++
            [Effect.socketDestroy] }) ∧
      (c.closed = true → close c = c) ∧
      (close c).closed = true ∧
      close (close c) = close c :=
  ⟨close_of_open c, close_of_closed c, close_closed c, close_close c⟩

theorem close_idempotent_witness :
    close (Socks5Connection.mk ⟨[117], [112]⟩ Stage.stream []
        [([49, 50, 55, 46, 48, 46, 48, 46, 49], 80)] [0] 3 0 false []) =
      Socks5Connection.mk ⟨[117], [112]⟩ Stage.stream []
        [([49, 50, 55, 46, 48, 46, 48, 46, 49], 80)] [0] 3 0 true
        [Effect.remoteDestroy 0, Effect.socketDestroy] ∧
      close (Socks5Connection.mk ⟨[117], [112]⟩ Stage.stream []
        [([49, 50, 55, 46, 48, 46, 48, 46, 49], 80)] [0] 3 0 true
        [Effect.remoteDestroy 0, Effect.socketDestroy]) =
      Socks5Connection.mk ⟨[117], [112]⟩ Stage.stream []
        [([49, 50, 55, 46, 48, 46, 48, 46, 49], 80)] [0] 3 0 true
        [Effect.remoteDestroy 0, Effect.socketDestroy] :=
  ⟨((close_idempotent (Socks5Connection.mk ⟨[117], [112]⟩ Stage.stream []
      [([49, 50, 55, 46, 48, 46, 48, 46, 49], 80)] [0] 3 0 false [])).1 rfl).trans (by decide),
    (close_idempotent (Socks5Connection.mk ⟨[117], [112]⟩ Stage.stream []
      [([49, 50, 55, 46, 48, 46, 48, 46, 49], 80)] [0] 3 0 true
      [Effect.remoteDestroy 0, Effect.socketDestroy])).2.1 rfl⟩

/-- C17: when the buffer, after the chunk is appended, holds at least two bytes in
stage `greeting` with a first byte other than 5, at least two bytes in stage
`auth` with a first byte other than 1, or at least four bytes in stage `request`
with a first byte other than 5, the handler only ends the client socket: it writes
nothing to the client, requests no outbound connection, keeps the stage and keeps
the bytes in the buffer. -/
theorem wrong_version_ends_without_reply (isIP : JsString → Nat) (c : Socks5Connection)
    (chunk : List Byte) (h : wrongVersion c.stage (c.buffer ++ chunk) = true) :
    onData isIP c chunk =
        { c with buffer := c.buffer ++ chunk, trace := c.trace ++ [Effect.socketEnd] } ∧
      clientBytes (onData isIP c chunk).trace = clientBytes c.trace ∧
      connects (onData isIP c chunk).trace = connects c.trace ∧
      (onData isIP c chunk).stage = c.stage := by
  rw [onData_wrong_version isIP c chunk h]
  refine ⟨rfl, ?_, ?_, rfl⟩
  · simp [clientBytes_append, clientBytes]
  · simp [connects_append, connects]

theorem wrong_version_ends_without_reply_witness :
    onData demoIsIP (Socks5Connection.mk ⟨[117], [112]⟩ Stage.greeting [] [] [] 0 0 false [])
        [4, 1, 2] =
      Socks5Connection.mk ⟨[117], [112]⟩ Stage.greeting [4, 1, 2] [] [] 0 0 false
        [Effect.socketEnd] ∧
    onData demoIsIP (Socks5Connection.mk ⟨[117], [112]⟩ Stage.auth [] [] [] 0 0 false
        [Effect.write [5, 2]]) [5, 1, 117, 1, 112] =
      Socks5Connection.mk ⟨[117], [112]⟩ Stage.auth [5, 1, 117, 1, 112] [] [] 0 0 false
        [Effect.write [5, 2], Effect.socketEnd] ∧
    onData demoIsIP (Socks5Connection.mk ⟨[117], [112]⟩ Stage.request [] [] [] 0 0 false [])
        [4, 1, 0, 1, 127, 0, 0, 1, 0, 80] =
      Socks5Connection.mk ⟨[117], [112]⟩ Stage.request [4, 1, 0, 1, 127, 0, 0, 1, 0, 80] [] [] 0
        0 false [Effect.socketEnd] :=
  ⟨(wrong_version_ends_without_reply demoIsIP
      (Socks5Connection.mk ⟨[117], [112]⟩ Stage.greeting [] [] [] 0 0 false [])
      [4, 1, 2] (by decide)).1,
    (wrong_version_ends_without_reply demoIsIP
      (Socks5Connection.mk ⟨[117], [112]⟩ Stage.auth [] [] [] 0 0 false [Effect.write [5, 2]])
      [5, 1, 117, 1, 112] (by decide)).1,
    (wrong_version_ends_without_reply demoIsIP
      (Socks5Connection.mk ⟨[117], [112]⟩ Stage.request [] [] [] 0 0 false [])
      [4, 1, 0, 1, 127, 0, 0, 1, 0, 80] (by decide)).1⟩

/-- C18 (fails on the code): after a handshake and two CONNECT requests sent while
the first outbound connection is pending, the connect callback puts the connection
in stage `stream` with `bytesUp = 0`; a client chunk received then is the only
chunk received in stage `stream`, yet `bytesUp` becomes twice its length. -/
theorem bytesUp_counted_twice (isIP : JsString → Nat) (creds : Credentials)
    (nm : Byte) (methods : List Byte) (ulen plen : Byte)
    (uname passwd r₁ r₂ chunk : List Byte)
    (hlen : methods.length = nm.val) (hmem : (2 : Byte) ∈ methods)
    (hu : uname.length = ulen.val) (hp : passwd.length = plen.val)
    (hname : utf8Decode uname = creds.username) (hpass : utf8Decode passwd = creds.password)
    (h₁ : IsUnit Stage.request r₁) (h₂ : IsUnit Stage.request r₂) :
    (run isIP (Socks5Connection.new creds)
        [Event.socketData (5 :: nm :: methods),
          Event.socketData (1 :: ulen :: (uname ++ plen :: passwd)),
          Event.socketData r₁, Event.socketData r₂]).stage = Stage.request ∧
      (run isIP (Socks5Connection.new creds)
        ([Event.socketData (5 :: nm :: methods),
          Event.socketData (1 :: ulen :: (uname ++ plen :: passwd)),
          Event.socketData r₁, Event.socketData r₂] ++
          [Event.remoteConnect 0])).stage = Stage.stream ∧
      (run isIP (Socks5Connection.new creds)
        ([Event.socketData (5 :: nm :: methods),
          Event.socketData (1 :: ulen :: (uname ++ plen :: passwd)),
          Event.socketData r₁, Event.socketData r₂] ++
          [Event.remoteConnect 0])).bytesUp = 0 ∧
      (run isIP (Socks5Connection.new creds)
        ([Event.socketData (5 :: nm :: methods),
          Event.socketData (1 :: ulen :: (uname ++ plen :: passwd)),
          Event.socketData r₁, Event.socketData r₂] ++
          [Event.remoteConnect 0, Event.socketData chunk])).bytesUp = 2 * chunk.length := by
  obtain ⟨host₁, port₁, host₂, port₂, -, -, h4⟩ := run_two_requests isIP creds nm methods
    ulen plen uname passwd r₁ r₂ hlen hmem hu hp hname hpass h₁ h₂
  rw [run_append, run_append, h4]
  have hone : ∀ c, run isIP c [Event.remoteConnect 0] = step isIP c (Event.remoteConnect 0) :=
    fun _ => rfl
  have htwo : ∀ c, run isIP c [Event.remoteConnect 0, Event.socketData chunk] =
      step isIP (step isIP c (Event.remoteConnect 0)) (Event.socketData chunk) :=
    fun _ => rfl
  rw [hone, htwo]
  obtain ⟨w1, w2, w3, w4, w5, w6, w7, w8⟩ := writeReply_fields isIP
    (Socks5Connection.mk creds Stage.request [] [(host₁, port₁), (host₂, port₂)] [] 0 0 false
      [Effect.write [5, 2], Effect.write [1, 0], Effect.createConnection host₁ port₁,
        Effect.createConnection host₂ port₂]) REP_SUCCEEDED host₁ port₁
  simp [step, remoteDestroyed, onRemoteConnect, onSocketData, onData, emit]
    at w1 w2 w3 w4 w5 w6 w7 w8 ⊢
  generalize writeReply isIP _ REP_SUCCEEDED host₁ port₁ = W at w1 w2 w3 w4 w5 w6 w7 w8 ⊢
  simp [w2, w3, w4, w5, w6, w7, w8]

theorem bytesUp_counted_twice_witness :
    (run demoIsIP (Socks5Connection.new ⟨[117], [112]⟩)
        ([Event.socketData (5 :: 1 :: [2]),
          Event.socketData (1 :: 1 :: ([117] ++ 1 :: [112])),
          Event.socketData [5, 1, 0, 1, 127, 0, 0, 1, 0, 80],
          Event.socketData [5, 1, 0, 1, 127, 0, 0, 1, 1, 187]] ++
          [Event.remoteConnect 0, Event.socketData [71, 69, 84]])).bytesUp =
      2 * [(71 : Byte), 69, 84].length :=
  (bytesUp_counted_twice demoIsIP ⟨[117], [112]⟩ 1 [2] 1 1 [117] [112]
    [5, 1, 0, 1, 127, 0, 0, 1, 0, 80] [5, 1, 0, 1, 127, 0, 0, 1, 1, 187] [71, 69, 84]
    rfl (by decide) rfl rfl (by decide) (by decide)
    (IsUnit.ipv4 0 127 0 0 1 0 80) (IsUnit.ipv4 0 127 0 0 1 1 187)).2.2.2

/-- C19 (counterexample): with `PROXY_PORT` set to `80abc`, which is not a decimal
numeral, and user and password set, `loadConfig` returns a configuration with
port 80 (`toLowerCase` leaves the default log level `info` as it is). -/
theorem loadConfig_accepts_trailing_garbage :
    loadConfig id (demoEnv (some [56, 48, 97, 98, 99])) =
        ConfigResult.ok ⟨80, [117], [112], [105, 110, 102, 111]⟩ ∧
      isPortNumeral [56, 48, 97, 98, 99] = false :=
  ⟨by decide, by decide⟩

/-- C19 (amended): `loadConfig` ends with an error whenever `PROXY_USER` or
`PROXY_PASS` is unset or empty, and with the invalid-port error whenever
`parseInt` of the port string (the value of `PROXY_PORT`, or `1080` when that is
unset or empty) is `NaN`, at most 0 or above 65535; whenever it returns, the port
is `parseInt` of the port string and lies in `1..65535`, it is 1080 when
`PROXY_PORT` is unset or empty, and the user and password returned are the
non-empty values of `PROXY_USER` and `PROXY_PASS`. -/
theorem loadConfig_validates (toLowerCase : JsString → JsString) (env : Env) :
    ((env EnvVar.PROXY_USER = none ∨ env EnvVar.PROXY_USER = some [] ∨
        env EnvVar.PROXY_PASS = none ∨ env EnvVar.PROXY_PASS = some []) →
        ∃ e, loadConfig toLowerCase env = ConfigResult.error e) ∧
      (∀ s, getEnv env EnvVar.PROXY_PORT (some defaultPort) = some s →
        (parseInt s 10 = none ∨ ∃ p, parseInt s 10 = some p ∧ (p ≤ 0 ∨ 65535 < p)) →
        loadConfig toLowerCase env = ConfigResult.error (ConfigError.invalidPort (some s))) ∧
      (∀ cfg, loadConfig toLowerCase env = ConfigResult.ok cfg →
        (∃ s, getEnv env EnvVar.PROXY_PORT (some defaultPort) = some s ∧
          parseInt s 10 = some cfg.port) ∧
        1 ≤ cfg.port ∧ cfg.port ≤ 65535 ∧
        ((env EnvVar.PROXY_PORT = none ∨ env EnvVar.PROXY_PORT = some []) → cfg.port = 1080) ∧
        env EnvVar.PROXY_USER = some cfg.username ∧ cfg.username ≠ [] ∧
        env EnvVar.PROXY_PASS = some cfg.password ∧ cfg.password ≠ []) := by
  refine ⟨fun h => ?_, fun s hs hbad => loadConfig_bad_port toLowerCase env s hs hbad,
    fun cfg h => ?_⟩
  · apply loadConfig_missing
    rcases h with h | h | h | h
    · exact Or.inl (getEnv_none_falsy env _ (Or.inl h))
    · exact Or.inl (getEnv_none_falsy env _ (Or.inr h))
    · exact Or.inr (getEnv_none_falsy env _ (Or.inl h))
    · exact Or.inr (getEnv_none_falsy env _ (Or.inr h))
  · obtain ⟨⟨s, hs, hp⟩, hlo, hhi, eu, nu, ew, nw⟩ := loadConfig_ok toLowerCase env cfg h
    refine ⟨⟨s, hs, hp⟩, hlo, hhi, fun hun => ?_, eu, nu, ew, nw⟩
    rw [getEnv_unset env _ _ hun] at hs
    have e : defaultPort = s := Option.some.inj hs
    subst e
    have h1080 : parseInt defaultPort 10 = some 1080 := by decide
    rw [h1080] at hp
    exact (Option.some.inj hp).symm

theorem loadConfig_validates_witness :
    (∃ e, loadConfig id (fun _ => none) = ConfigResult.error e) ∧
      loadConfig id (demoEnv (some [48])) =
        ConfigResult.error (ConfigError.invalidPort (some [48])) ∧
      loadConfig id (demoEnv (some [54, 53, 53, 51, 54])) =
        ConfigResult.error (ConfigError.invalidPort (some [54, 53, 53, 51, 54])) ∧
      loadConfig id (demoEnv (some [97])) =
        ConfigResult.error (ConfigError.invalidPort (some [97])) ∧
      (1 : Int) ≤ 1080 ∧ (1080 : Int) ≤ 65535 :=
  ⟨(loadConfig_validates id (fun _ => none)).1 (Or.inl rfl),
    (loadConfig_validates id (demoEnv (some [48]))).2.1 [48] (by decide)
      (Or.inr ⟨0, by decide, Or.inl (by decide)⟩),
    (loadConfig_validates id (demoEnv (some [54, 53, 53, 51, 54]))).2.1 [54, 53, 53, 51, 54]
      (by decide) (Or.inr ⟨65536, by decide, Or.inr (by decide)⟩),
    (loadConfig_validates id (demoEnv (some [97]))).2.1 [97] (by decide) (Or.inl (by decide)),
    ((loadConfig_validates id (demoEnv none)).2.2
      ⟨1080, [117], [112], [105, 110, 102, 111]⟩ (by decide)).2.1,
    ((loadConfig_validates id (demoEnv none)).2.2
      ⟨1080, [117], [112], [105, 110, 102, 111]⟩ (by decide)).2.2.1⟩

/-- C20: for an IPv4 CONNECT request `05 01 RSV 01 a p` and an IPv6 CONNECT request
`05 01 RSV 04 a p` (four or sixteen address bytes, two port bytes), the host and
port that `handleRequest` hands to `establishRemote` give, through
`buildReply(0x00, host, port)`, the reply `05 00 00 ATYP a p` with the ATYP,
address bytes and port bytes of the request; `net.isIP` classifies the decoded
host string as IPv4 or IPv6 respectively. -/
theorem request_address_round_trip (isIP : JsString → Nat) (c : Socks5Connection)
    (rsv p0 p1 : Byte) (rest : List Byte) :
    (∀ a0 a1 a2 a3 : Byte, isIP (dottedQuad a0 a1 a2 a3) = 4 →
        c.buffer = 5 :: 1 :: rsv :: 1 :: a0 :: a1 :: a2 :: a3 :: p0 :: p1 :: rest →
        ∃ host port,
          handleRequest isIP c = establishRemote { c with buffer := rest } host port ∧
          buildReply isIP REP_SUCCEEDED host port =
            some ([5, 0, 0, 1] ++ [a0, a1, a2, a3] ++ [p0, p1])) ∧
      (∀ addr : List Byte, addr.length = 16 → isIP (ipv6String addr) = 6 →
        c.buffer = 5 :: 1 :: rsv :: 4 :: (addr ++ p0 :: p1 :: rest) →
        ∃ host port,
          handleRequest isIP c = establishRemote { c with buffer := rest } host port ∧
          buildReply isIP REP_SUCCEEDED host port = some ([5, 0, 0, 4] ++ addr ++ [p0, p1])) := by
  refine ⟨fun a0 a1 a2 a3 h4 hbuf => ?_, fun addr ha h6 hbuf => ?_⟩
  · exact ⟨_, _, handleRequest_ipv4 isIP c rsv a0 a1 a2 a3 p0 p1 rest hbuf,
      buildReply_dottedQuad isIP a0 a1 a2 a3 p0 p1 h4⟩
  · refine ⟨_, _, handleRequest_ipv6 isIP c rsv addr p0 p1 rest ha hbuf, ?_⟩
    rw [ipv6String_eq addr ha]
    exact buildReply_ipv6String isIP addr p0 p1 ha h6

theorem request_address_round_trip_witness :
    (∃ host port,
        handleRequest demoIsIP (Socks5Connection.mk ⟨[117], [112]⟩ Stage.request
            [5, 1, 0, 1, 127, 0, 0, 1, 1, 187] [] [] 0 0 false []) =
          establishRemote { Socks5Connection.mk ⟨[117], [112]⟩ Stage.request
            [5, 1, 0, 1, 127, 0, 0, 1, 1, 187] [] [] 0 0 false [] with buffer := [] }
            host port ∧
        buildReply demoIsIP REP_SUCCEEDED host port =
          some ([5, 0, 0, 1] ++ [127, 0, 0, 1] ++ [1, 187])) ∧
      (∃ host port,
        handleRequest demoIsIP (Socks5Connection.mk ⟨[117], [112]⟩ Stage.request
            [5, 1, 0, 4, 32, 1, 13, 184, 0, 0, 0, 0, 0, 0, 0, 0, 0, 0, 0, 1, 1, 187]
            [] [] 0 0 false []) =
          establishRemote { Socks5Connection.mk ⟨[117], [112]⟩ Stage.request
            [5, 1, 0, 4, 32, 1, 13, 184, 0, 0, 0, 0, 0, 0, 0, 0, 0, 0, 0, 1, 1, 187]
            [] [] 0 0 false [] with buffer := [] } host port ∧
        buildReply demoIsIP REP_SUCCEEDED host port =
          some ([5, 0, 0, 4] ++ [32, 1, 13, 184, 0, 0, 0, 0, 0, 0, 0, 0, 0, 0, 0, 1] ++
            [1, 187])) :=
  ⟨(request_address_round_trip demoIsIP (Socks5Connection.mk ⟨[117], [112]⟩ Stage.request
      [5, 1, 0, 1, 127, 0, 0, 1, 1, 187] [] [] 0 0 false []) 0 1 187 []).1 127 0 0 1
      (by decide) rfl,
    (request_address_round_trip demoIsIP (Socks5Connection.mk ⟨[117], [112]⟩ Stage.request
      [5, 1, 0, 4, 32, 1, 13, 184, 0, 0, 0, 0, 0, 0, 0, 0, 0, 0, 0, 1, 1, 187]
      [] [] 0 0 false []) 0 1 187 []).2
      [32, 1, 13, 184, 0, 0, 0, 0, 0, 0, 0, 0, 0, 0, 0, 1] rfl (by decide) rfl⟩

end Socks5
